import Mathlib

set_option linter.unusedVariables false

/-!
Shallow embedding of the translation-messenger core: the in-memory
translation cache (`src/lib/translation-cache.ts`), the Featherless
translator client (`src/lib/realtime.ts` / `featherless`), the SSE
connection registry (`src/lib/sse-broadcast.ts`), and the message
fan-out route (`src/app/api/conversations/[id]/messages/route.ts`).

JavaScript `Map`s are modelled as association lists with key-nodup
invariants (JS `Map.set` overwrites in place and appends new keys, so
insertion order is preserved); `Date.now()` is an explicit `Nat`
millisecond parameter; JS numbers that carry fractional values
(confidence, hit rate) are modelled as `Rat`; promise rejection is
modelled with `Except`; the external translation endpoint is an
explicit oracle (`TransEnv`).
-/

namespace LangApp

/-! ### JS string primitives

Structural models of `String.prototype.trim` and
`String.prototype.toLowerCase` (ASCII case folding; the texts this
development evaluates are ASCII).  They are defined over the character
list so that concrete inputs reduce inside the kernel. -/

def jsWhitespace (c : Char) : Bool :=
  c = ' ' || c = '\t' || c = '\n' || c = '\r'

def jsTrim (s : String) : String :=
  String.mk (((s.toList.dropWhile jsWhitespace).reverse.dropWhile jsWhitespace).reverse)

def asciiLower (c : Char) : Char :=
  if 65 ≤ c.toNat ∧ c.toNat ≤ 90 then Char.ofNat (c.toNat + 32) else c

def jsToLower (s : String) : String :=
  String.mk (s.toList.map asciiLower)

/-! ### Association-list model of the JavaScript `Map` -/

def mapLookup {α : Type} : List (String × α) → String → Option α
  | [], _ => none
  | p :: rest, k => if p.1 = k then some p.2 else mapLookup rest k

/-- JS `Map.set`: overwrite in place when the key exists, append otherwise. -/
def mapSet {α : Type} : List (String × α) → String → α → List (String × α)
  | [], k, v => [(k, v)]
  | p :: rest, k, v => if p.1 = k then (k, v) :: rest else p :: mapSet rest k v

/-- JS `Map.delete` (under the key-nodup invariant this removes exactly
the one entry holding the key). -/
def mapDelete {α : Type} : List (String × α) → String → List (String × α)
  | [], _ => []
  | p :: rest, k => if p.1 = k then mapDelete rest k else p :: mapDelete rest k

/-! ### UTF-8 and base64 (`Buffer.from(text).toString('base64')`) -/

def charUtf8 (c : Char) : List Nat :=
  let n := c.toNat
  if n < 0x80 then [n]
  else if n < 0x800 then [0xC0 + n / 0x40, 0x80 + n % 0x40]
  else if n < 0x10000 then
    [0xE0 + n / 0x1000, 0x80 + (n / 0x40) % 0x40, 0x80 + n % 0x40]
  else
    [0xF0 + n / 0x40000, 0x80 + (n / 0x1000) % 0x40, 0x80 + (n / 0x40) % 0x40,
     0x80 + n % 0x40]

def utf8Bytes (s : String) : List Nat :=
  (s.toList.map charUtf8).flatten

def base64Alphabet : List Char :=
  "ABCDEFGHIJKLMNOPQRSTUVWXYZabcdefghijklmnopqrstuvwxyz0123456789+/".toList

def base64Char (n : Nat) : Char := base64Alphabet.getD n '?'

def base64Chunks : List Nat → List Char
  | [] => []
  | [b1] => [base64Char (b1 / 4), base64Char (b1 % 4 * 16), '=', '=']
  | [b1, b2] =>
      [base64Char (b1 / 4), base64Char (b1 % 4 * 16 + b2 / 16),
       base64Char (b2 % 16 * 4), '=']
  | b1 :: b2 :: b3 :: rest =>
      base64Char (b1 / 4) :: base64Char (b1 % 4 * 16 + b2 / 16) ::
      base64Char (b2 % 16 * 4 + b3 / 64) :: base64Char (b3 % 64) ::
      base64Chunks rest

def base64Encode (s : String) : String := String.mk (base64Chunks (utf8Bytes s))

/-! ### Translation cache (`src/lib/translation-cache.ts`) -/

structure CachedTranslation where
  id : String
  originalText : String
  translatedText : String
  sourceLanguage : String
  targetLanguage : String
  confidence : Rat
  timestamp : Nat
  hitCount : Nat
deriving Repr, DecidableEq

structure TranslationCacheStats where
  totalRequests : Nat
  cacheHits : Nat
  cacheMisses : Nat
  hitRate : Rat
  memoryEntries : Nat
  dbEntries : Nat
deriving Repr, DecidableEq

structure TranslationCache where
  memoryCache : List (String × CachedTranslation)
  stats : TranslationCacheStats
deriving Repr, DecidableEq

def maxMemoryEntries : Nat := 1000

def maxAge : Nat := 24 * 60 * 60 * 1000

def initialCache : TranslationCache :=
  { memoryCache := []
    stats := { totalRequests := 0, cacheHits := 0, cacheMisses := 0,
               hitRate := 0, memoryEntries := 0, dbEntries := 0 } }

def generateKey (text sourceLanguage targetLanguage : String) : String :=
  let normalizedText := jsToLower (jsTrim text)
  sourceLanguage ++ ":" ++ targetLanguage ++ ":" ++ base64Encode normalizedText

def isExpired (now : Nat) (entry : CachedTranslation) : Bool :=
  now - entry.timestamp > maxAge

/-- `updateHitRate`: the source stores
`(cacheHits / totalRequests) * 100` (a percentage) when `totalRequests > 0`,
and `0` otherwise. -/
def updateHitRate (stats : TranslationCacheStats) : TranslationCacheStats :=
  { stats with
      hitRate :=
        if stats.totalRequests > 0 then
          (stats.cacheHits : Rat) / (stats.totalRequests : Rat) * 100
        else 0 }

/-- `TranslationCache.get`.  The durable tier (`getFromDatabase`) is the
source's placeholder that always returns `null`, so after a memory miss (or
a lazily-expired memory entry) the call always records a miss.  A memory hit
increments the entry's `hitCount` in place and returns the updated entry. -/
def cacheGet (st : TranslationCache) (now : Nat)
    (text sourceLanguage targetLanguage : String) :
    Option CachedTranslation × TranslationCache :=
  let stats1 := { st.stats with totalRequests := st.stats.totalRequests + 1 }
  let key := generateKey text sourceLanguage targetLanguage
  match mapLookup st.memoryCache key with
  | some e =>
    if isExpired now e then
      (none, { st with
        stats := updateHitRate { stats1 with cacheMisses := stats1.cacheMisses + 1 } })
    else
      let hit := { e with hitCount := e.hitCount + 1 }
      (some hit,
       { memoryCache := mapSet st.memoryCache key hit
         stats := updateHitRate { stats1 with cacheHits := stats1.cacheHits + 1 } })
  | none =>
      (none, { st with
        stats := updateHitRate { stats1 with cacheMisses := stats1.cacheMisses + 1 } })

/-- Ordering used by `evictLeastUsed`: ascending hit count
(`entries.sort((a, b) => a[1].hitCount - b[1].hitCount)`). -/
def hitLE (a b : String × CachedTranslation) : Prop :=
  a.2.hitCount ≤ b.2.hitCount

instance : DecidableRel hitLE := fun a b => Nat.decLe a.2.hitCount b.2.hitCount

instance : IsTotal (String × CachedTranslation) hitLE :=
  ⟨fun a b => Nat.le_total a.2.hitCount b.2.hitCount⟩

instance : IsTrans (String × CachedTranslation) hitLE :=
  ⟨fun _ _ _ h1 h2 => Nat.le_trans h1 h2⟩

/-- `evictLeastUsed`: sort the entries by ascending hit count and delete the
first `Math.floor(maxMemoryEntries * 0.1) = 100` of them.  (The source only
calls this when the map holds more than `maxMemoryEntries` entries, so the
sorted array always has at least 100 elements; the sort used here produces a
sorted permutation, and ties are broken arbitrarily exactly as the spec
allows.) -/
def evictLeastUsed (st : TranslationCache) : TranslationCache :=
  let sorted := List.insertionSort hitLE st.memoryCache
  let toRemove := maxMemoryEntries / 10
  let removed := (sorted.take toRemove).map Prod.fst
  let mem := removed.foldl (fun m k => mapDelete m k) st.memoryCache
  { st with memoryCache := mem
            stats := { st.stats with memoryEntries := mem.length } }

/-- The entry that `cacheSet` stores (with `hits` hit-count, for stating
what `cacheGet` later returns). -/
def storedEntry (text translatedText sourceLanguage targetLanguage : String)
    (confidence : Rat) (now hits : Nat) : CachedTranslation :=
  { id := generateKey text sourceLanguage targetLanguage
    originalText := text
    translatedText := translatedText
    sourceLanguage := sourceLanguage
    targetLanguage := targetLanguage
    confidence := confidence
    timestamp := now
    hitCount := hits }

/-- `TranslationCache.set`: insert into the memory tier (hit count 0),
evict when past capacity, then attempt the durable write (`saveToDatabase`
is the source's no-op placeholder, which succeeds, after which `dbEntries`
is incremented). -/
def cacheSet (st : TranslationCache) (now : Nat)
    (text translatedText sourceLanguage targetLanguage : String)
    (confidence : Rat) : TranslationCache :=
  let key := generateKey text sourceLanguage targetLanguage
  let cached := storedEntry text translatedText sourceLanguage targetLanguage confidence now 0
  let mem1 := mapSet st.memoryCache key cached
  let st1 : TranslationCache :=
    { memoryCache := mem1
      stats := { st.stats with memoryEntries := mem1.length } }
  let st2 := if mem1.length > maxMemoryEntries then evictLeastUsed st1 else st1
  { st2 with stats := { st2.stats with dbEntries := st2.stats.dbEntries + 1 } }

/-- `cleanupExpired`: the periodic sweep that reclaims expired entries
physically. -/
def cleanupExpired (st : TranslationCache) (now : Nat) : TranslationCache :=
  let mem := st.memoryCache.filter (fun p => now - p.2.timestamp ≤ maxAge)
  if mem.length < st.memoryCache.length then
    { st with memoryCache := mem
              stats := { st.stats with memoryEntries := mem.length } }
  else st

/-- A cache operation, for reasoning about arbitrary operation sequences. -/
inductive CacheOp where
  | get (now : Nat) (text sourceLanguage targetLanguage : String)
  | set (now : Nat) (text translatedText sourceLanguage targetLanguage : String)
        (confidence : Rat)
  | sweep (now : Nat)

def applyOp (st : TranslationCache) : CacheOp → TranslationCache
  | .get now t s tg => (cacheGet st now t s tg).2
  | .set now t tr s tg c => cacheSet st now t tr s tg c
  | .sweep now => cleanupExpired st now

def applyOps (st : TranslationCache) (ops : List CacheOp) : TranslationCache :=
  ops.foldl applyOp st

/-! ### Translator client (`FeatherlessTranslator`, `src/lib` featherless module) -/

structure TranslationResponse where
  translatedText : String
  detectedLanguage : Option String
  confidence : Option Rat
deriving Repr, DecidableEq

/-- Outcome of one call to the external chat-completions endpoint. -/
inductive FetchOutcome where
  /-- the `fetch` promise rejected (network fault), or the 10s timeout race
  fired (message `"Translation timeout"`). -/
  | networkError (message : String)
  /-- `response.ok` was false; carries the HTTP status, the status text and
  the parsed body's `error.message` (empty string when absent). -/
  | httpError (status : Nat) (statusText : String) (errorMessage : String)
  /-- a 2xx response; `content` is `choices[0].message.content` (`none` when
  the field is missing). -/
  | success (content : Option String)
deriving Repr, DecidableEq

/-- The error message thrown by one attempt of `translateWithRetry`, or
`none` when the attempt succeeds.  Mirrors the source:
a non-ok response throws
`AI Translation API error: <status> - <errorData.error?.message || statusText>`
and a missing/empty trimmed content throws
`No translation received from AI Translation API`. -/
def fetchErrorMessage : FetchOutcome → Option String
  | .networkError msg => some msg
  | .httpError status statusText errorMessage =>
      some ("AI Translation API error: " ++ toString status ++ " - " ++
            (if errorMessage = "" then statusText else errorMessage))
  | .success content =>
      if jsTrim (content.getD "") = "" then
        some "No translation received from AI Translation API"
      else none

def FetchOutcome.contentText : FetchOutcome → String
  | .success content => jsTrim (content.getD "")
  | _ => ""

/-- A `FetchOutcome` that represents a failing endpoint call. -/
def FetchOutcome.failed : FetchOutcome → Prop
  | .networkError _ => True
  | .httpError _ _ _ => True
  | .success _ => False

/-- Environment of the translator client: the API key (none when no key is
configured, which makes `getTranslator` throw), the outcome of the
attempt-numbered translation call, and the raw content returned by the
language-detection call (`none` when that request fails or the content is
missing, in which case the source falls back to `"en"`). -/
structure TransEnv where
  apiKey : Option String
  fetchOutcome : Nat → FetchOutcome
  detectOutcome : String → Option String

def validLangCodes : List String :=
  ["en", "es", "fr", "de", "it", "pt", "ru", "ja", "ko", "zh", "ar", "hi"]

/-- `detectLanguage`: ask the endpoint, lowercase-trim the answer, accept it
only if it is one of the twelve supported codes, and fall back to `"en"` on
any failure. -/
def detectLanguage (env : TransEnv) (text : String) : String :=
  match env.detectOutcome text with
  | none => "en"
  | some raw =>
      let d := jsToLower (jsTrim raw)
      if d ∈ validLangCodes then d else "en"

/-- `calculateConfidence`: 0.95 when the text is unchanged, 0.5 when the
output/input length ratio is extreme, 0.85 otherwise. -/
def calculateConfidence (originalText translatedText : String) : Rat :=
  if originalText = translatedText then 95 / 100
  else
    let lengthRatio : Rat := (translatedText.length : Rat) / (originalText.length : Rat)
    if lengthRatio < 3 / 10 ∨ lengthRatio > 3 then 1 / 2
    else 85 / 100

/-- Substring test, modelling JS `String.prototype.includes`. -/
def hasSubstr (s pat : String) : Bool :=
  s.toList.tails.any (fun t => pat.toList.isPrefixOf t)

/-- `shouldRetry`: retry only when the error message mentions a timeout, a
fetch (network) fault, or one of the literal status codes 500/502/503/504. -/
def shouldRetry (message : String) : Bool :=
  hasSubstr message "timeout" || hasSubstr message "fetch" ||
  hasSubstr message "500" || hasSubstr message "502" ||
  hasSubstr message "503" || hasSubstr message "504"

def maxRetries : Nat := 3

def retryDelay : Nat := 1000

def requestTimeout : Nat := 10000

/-- The response of one successful attempt: the trimmed returned content,
a fresh language detection, and the heuristic confidence. -/
def attemptResponse (env : TransEnv) (text : String) (attempt : Nat) : TranslationResponse :=
  { translatedText := (env.fetchOutcome attempt).contentText
    detectedLanguage := some (detectLanguage env text)
    confidence := some (calculateConfidence text (env.fetchOutcome attempt).contentText) }

/-- The final fallback `{translatedText: text, detectedLanguage: 'unknown',
confidence: 0}`. -/
def fallbackResponse (text : String) : TranslationResponse :=
  { translatedText := text
    detectedLanguage := some "unknown"
    confidence := some 0 }

/-- The retry loop of `translateWithRetry`, with the source condition
`attempt < this.maxRetries` rephrased as structural recursion on the fuel
`maxRetries - attempt` (positive fuel is exactly `attempt < maxRetries`).
Instrumented to also return the number of fetch attempts made and the list
of backoff delays awaited (the source awaits
`this.delay(this.retryDelay * attempt)` before each retry). -/
def translateWithRetryGo (env : TransEnv) (text : String) :
    Nat → Nat → TranslationResponse × Nat × List Nat
  | attempt, 0 =>
    match fetchErrorMessage (env.fetchOutcome attempt) with
    | none => (attemptResponse env text attempt, 1, [])
    | some _ => (fallbackResponse text, 1, [])
  | attempt, fuel + 1 =>
    match fetchErrorMessage (env.fetchOutcome attempt) with
    | none => (attemptResponse env text attempt, 1, [])
    | some msg =>
        if shouldRetry msg then
          let rest := translateWithRetryGo env text (attempt + 1) fuel
          (rest.1, rest.2.1 + 1, retryDelay * attempt :: rest.2.2)
        else (fallbackResponse text, 1, [])

def translateWithRetry (env : TransEnv) (text targetLanguage sourceLanguage : String)
    (attempt : Nat) : TranslationResponse × Nat × List Nat :=
  translateWithRetryGo env text attempt (maxRetries - attempt)

/-- `FeatherlessTranslator.translateText`: validation, cache lookup,
same-language fast path via `detectLanguage`, then `translateWithRetry`;
the result is cached when its text is non-empty and its confidence
exceeds 0.5.  Promise rejection is the `Except.error` case. -/
def translateText (env : TransEnv) (st : TranslationCache) (now : Nat)
    (text targetLanguage sourceLanguage : String) :
    Except String TranslationResponse × TranslationCache :=
  if jsTrim text = "" then (.error "Text is required for translation", st)
  else if targetLanguage = "" then (.error "Target language is required", st)
  else
    match cacheGet st now text sourceLanguage targetLanguage with
    | (some cachedResult, st1) =>
        (.ok { translatedText := cachedResult.translatedText
               detectedLanguage := some cachedResult.sourceLanguage
               confidence := some cachedResult.confidence }, st1)
    | (none, st1) =>
        let detectedLang := detectLanguage env text
        if detectedLang = targetLanguage then
          let st2 := cacheSet st1 now text text detectedLang targetLanguage (95 / 100)
          (.ok { translatedText := text
                 detectedLanguage := some targetLanguage
                 confidence := some (95 / 100) }, st2)
        else
          let result := (translateWithRetry env text targetLanguage sourceLanguage 1).1
          let st2 :=
            if result.translatedText ≠ "" ∧ result.confidence.getD 0 > 1 / 2 then
              cacheSet st1 now text result.translatedText
                (result.detectedLanguage.getD sourceLanguage) targetLanguage
                (result.confidence.getD 0)
            else st1
          (.ok result, st2)

/-- The orchestrator-facing wrapper `translateMessage`: obtain the singleton
translator (which throws when no API key is configured), call
`translateText`, and on any rejection return the original text with the
given source language and confidence 0. -/
def translateMessage (env : TransEnv) (st : TranslationCache) (now : Nat)
    (text targetLanguage sourceLanguage : String) :
    TranslationResponse × TranslationCache :=
  match env.apiKey with
  | none =>
      ({ translatedText := text
         detectedLanguage := some sourceLanguage
         confidence := some 0 }, st)
  | some _ =>
      match translateText env st now text targetLanguage sourceLanguage with
      | (.ok r, st1) => (r, st1)
      | (.error _, st1) =>
          ({ translatedText := text
             detectedLanguage := some sourceLanguage
             confidence := some 0 }, st1)

/-- The external endpoint fails on every call: every translation attempt
fails and the language-detection call fails too. -/
def alwaysFails (env : TransEnv) : Prop :=
  (∀ n, (env.fetchOutcome n).failed) ∧ (∀ t, env.detectOutcome t = none)

/-! ### Connection registry / broadcaster (`src/lib/sse-broadcast.ts`) -/

/-- One SSE connection.  `closed` models a dead channel: `controller.enqueue`
throws on it.  `queue` records the payloads successfully enqueued. -/
structure Conn where
  userId : String
  closed : Bool
  queue : List String
deriving Repr, DecidableEq

/-- The two module-level tables: the connection table and the
conversation-subscription index (each subscriber set is a JS `Set`, modelled
as an insertion-ordered duplicate-free list). -/
structure Registry where
  connections : List (String × Conn)
  conversationSubscribers : List (String × List String)
deriving Repr, DecidableEq

def addConnection (st : Registry) (connectionId : String) (c : Conn) : Registry :=
  { st with connections := mapSet st.connections connectionId c }

def removeConnection (st : Registry) (connectionId : String) : Registry :=
  { st with connections := mapDelete st.connections connectionId }

def addSubscriber (st : Registry) (conversationId connectionId : String) : Registry :=
  let cur := (mapLookup st.conversationSubscribers conversationId).getD []
  let cur1 := if connectionId ∈ cur then cur else cur ++ [connectionId]
  { st with conversationSubscribers := mapSet st.conversationSubscribers conversationId cur1 }

def removeSubscriber (st : Registry) (conversationId connectionId : String) : Registry :=
  match mapLookup st.conversationSubscribers conversationId with
  | none => st
  | some cur =>
      { st with conversationSubscribers :=
          mapSet st.conversationSubscribers conversationId (cur.erase connectionId) }

/-- `broadcastToUser`: push to every connection owned by the user; a failed
push (closed channel) deletes that connection from the connection table —
and from the connection table only. -/
def broadcastToUser (st : Registry) (userId message : String) : Registry :=
  { st with connections := st.connections.filterMap (fun p =>
      if p.2.userId = userId then
        if p.2.closed then none
        else some (p.1, { p.2 with queue := p.2.queue ++ [message] })
      else some p) }

inductive BroadcastOutcome where
  /-- the early return `{success: false, reason: 'no_subscribers', count: 0}`. -/
  | noSubscribers
  /-- `{success, successCount, failureCount, failedConnections,
  totalSubscribers}` where `totalSubscribers` is read off the subscriber set
  after the cleanup deletions. -/
  | counts (successCount failureCount : Nat) (failedConnections : List String)
           (totalSubscribers : Nat)
deriving Repr, DecidableEq

/-- Whether a broadcast outcome carries the delivered/failed/total-subscriber
counts (as opposed to the `no_subscribers` early return). -/
def BroadcastOutcome.isCounts : BroadcastOutcome → Bool
  | .noSubscribers => false
  | .counts _ _ _ _ => true

structure BroadcastAcc where
  connections : List (String × Conn)
  subs : List String
  successCount : Nat
  failureCount : Nat
  failedConnections : List String

/-- One iteration of the subscriber loop of `broadcastToConversation`. -/
def broadcastStep (message : String) (acc : BroadcastAcc) (connectionId : String) :
    BroadcastAcc :=
  match mapLookup acc.connections connectionId with
  | some connection =>
      if connection.closed then
        { acc with
            failureCount := acc.failureCount + 1
            failedConnections := acc.failedConnections ++ [connectionId]
            connections := mapDelete acc.connections connectionId
            subs := acc.subs.erase connectionId }
      else
        { acc with
            connections := mapSet acc.connections connectionId
              { connection with queue := connection.queue ++ [message] }
            successCount := acc.successCount + 1 }
  | none =>
      { acc with
          subs := acc.subs.erase connectionId
          failureCount := acc.failureCount + 1
          failedConnections := acc.failedConnections ++ [connectionId] }

/-- `broadcastToConversation`: iterate over the conversation's subscriber
set (the loop visits the members present when iteration starts; the loop
body only ever deletes the member being visited, so iterating the original
list is faithful), enqueue to each live connection, delete dead connections
from both tables and stale ids from the subscriber set, and return the
counts.  Enqueue failures are caught in the loop, so the function is total:
it never throws. -/
def broadcastToConversation (st : Registry) (conversationId message : String) :
    BroadcastOutcome × Registry :=
  match mapLookup st.conversationSubscribers conversationId with
  | none => (.noSubscribers, st)
  | some subscribers =>
    if subscribers = [] then (.noSubscribers, st)
    else
      let acc := subscribers.foldl (broadcastStep message)
        { connections := st.connections, subs := subscribers,
          successCount := 0, failureCount := 0, failedConnections := [] }
      (.counts acc.successCount acc.failureCount acc.failedConnections acc.subs.length,
       { connections := acc.connections
         conversationSubscribers :=
           mapSet st.conversationSubscribers conversationId acc.subs })

/-- A connection id that is present in the table and open. -/
def liveConn (connections : List (String × Conn)) (connectionId : String) : Bool :=
  match mapLookup connections connectionId with
  | some c => !c.closed
  | none => false

/-- The registry consistency invariant of the spec: every connection id in
the subscription index exists in the connection table. -/
def registryConsistent (st : Registry) : Prop :=
  ∀ conversationId subs, mapLookup st.conversationSubscribers conversationId = some subs →
    ∀ cid ∈ subs, mapLookup st.connections cid ≠ none

/-! ### Message fan-out route (`src/app/api/conversations/[id]/messages/route.ts`) -/

structure Member where
  clerkId : String
  preferredLanguage : Option String
deriving Repr, DecidableEq

structure MessageRec where
  id : String
  conversationId : String
  content : String
  senderId : String
  createdAt : Nat
  originalLanguage : Option String
deriving Repr, DecidableEq

structure SenderRec where
  firstName : Option String
  lastName : Option String
  imageUrl : Option String
deriving Repr, DecidableEq

/-- The per-recipient rendering pushed over the SSE channel. -/
structure RealtimePayload where
  id : String
  conversationId : String
  content : String
  originalContent : String
  senderId : String
  senderName : String
  senderImageUrl : Option String
  timestamp : Nat
  originalLanguage : Option String
  translatedContent : Option String
  targetLanguage : Option String
  detectedLanguage : Option String
  isTranslated : Bool
  confidence : Option Rat
deriving Repr, DecidableEq

/-- A delivery attempt made by the route: one conversation broadcast or one
per-user push. -/
inductive Delivery where
  | toConversation (conversationId : String) (payload : RealtimePayload)
  | toUser (userId : String) (payload : RealtimePayload)
deriving Repr, DecidableEq

/-- External collaborators of the POST handler. -/
structure PostEnv where
  /-- `auth()`; `none` is an unauthenticated request. -/
  authUserId : Option String
  /-- parsed request JSON `(content, originalLanguage)`; `none` models a
  `request.json()` rejection. -/
  body : Option (String × Option String)
  /-- `DatabaseService.sendMessage`; `error` models a persistence failure. -/
  persist : Except Unit MessageRec
  /-- `DatabaseService.getUserByClerkId`. -/
  sender : Option SenderRec
  /-- `DatabaseService.getConversationMembers`. -/
  members : List Member
  /-- outcome of `translateMessage` for the recipient with that clerk id
  (`error` models a rejection, which the route catches). -/
  translationOutcome : String → Except Unit TranslationResponse

inductive PostResponse where
  | ok (payload : RealtimePayload)
  | unauthorized
  | badRequest
  | serverError
deriving Repr, DecidableEq

/-- `${sender?.firstName || ''} ${sender?.lastName || ''}`.trim() with the
`'Unknown User'` fallback. -/
def senderName (sender : Option SenderRec) : String :=
  let n := jsTrim (((sender.bind SenderRec.firstName).getD "") ++ " " ++
                   ((sender.bind SenderRec.lastName).getD ""))
  if n = "" then "Unknown User" else n

def baseRealtimeMessage (message : MessageRec) (sender : Option SenderRec) :
    RealtimePayload :=
  { id := message.id
    conversationId := message.conversationId
    content := message.content
    originalContent := message.content
    senderId := message.senderId
    senderName := senderName sender
    senderImageUrl := sender.bind SenderRec.imageUrl
    timestamp := message.createdAt
    originalLanguage := message.originalLanguage
    translatedContent := none
    targetLanguage := none
    detectedLanguage := none
    isTranslated := false
    confidence := none }

/-- The payload sent to one recipient: the translated rendering when the
recipient has a preferred language different from the message's original
language and the translation both returned a non-empty text and a
confidence above 0, and the untranslated base message in every other case
(same language, missing preference, low confidence, or a translation
rejection caught by the route). -/
def recipientPayload (env : PostEnv) (base : RealtimePayload)
    (originalLanguage : Option String) (recipient : Member) : RealtimePayload :=
  match recipient.preferredLanguage with
  | none => base
  | some pref =>
      if some pref = originalLanguage then base
      else
        match env.translationOutcome recipient.clerkId with
        | .error _ => base
        | .ok tr =>
            if tr.translatedText ≠ "" ∧ tr.confidence.getD 0 > 0 then
              { base with
                  content := tr.translatedText
                  translatedContent := some tr.translatedText
                  targetLanguage := some pref
                  detectedLanguage := tr.detectedLanguage
                  isTranslated := true
                  confidence := tr.confidence }
            else base

/-- The POST handler: auth, body parse, content validation, persistence,
then one conversation broadcast of the untranslated message followed by one
per-recipient push (translated or original).  Any throw before the
broadcasts (body parse, persistence) is caught by the outer handler, which
returns the 500 response with no delivery attempted. -/
def postMessage (env : PostEnv) (conversationId : String) :
    PostResponse × List Delivery :=
  match env.authUserId with
  | none => (.unauthorized, [])
  | some userId =>
    match env.body with
    | none => (.serverError, [])
    | some (content, originalLanguage) =>
      if jsTrim content = "" then (.badRequest, [])
      else
        match env.persist with
        | .error _ => (.serverError, [])
        | .ok message =>
          let base := baseRealtimeMessage message env.sender
          let recipients := env.members.filter (fun m => ¬ m.clerkId = userId)
          (.ok base,
           .toConversation conversationId base ::
           recipients.map (fun r =>
             .toUser r.clerkId (recipientPayload env base originalLanguage r)))

/-! ## Lemmas about the `Map` model -/

theorem mapLookup_mapSet_self {α : Type} (l : List (String × α)) (k : String) (v : α) :
    mapLookup (mapSet l k v) k = some v := by
  induction l with
  | nil => simp [mapSet, mapLookup]
  | cons p rest ih =>
    by_cases h : p.1 = k
    · simp [mapSet, mapLookup, h]
    · simp [mapSet, mapLookup, h, ih]

theorem mapLookup_mapSet_ne {α : Type} (l : List (String × α)) (k k' : String) (v : α)
    (h : k' ≠ k) : mapLookup (mapSet l k v) k' = mapLookup l k' := by
  have h' : ¬ k = k' := fun e => h e.symm
  induction l with
  | nil => simp [mapSet, mapLookup, h']
  | cons p rest ih =>
    by_cases hp : p.1 = k
    · have hp' : ¬ p.1 = k' := by rw [hp]; exact h'
      simp [mapSet, mapLookup, hp, hp', h']
    · simp only [mapSet, mapLookup]
      rw [if_neg hp]
      by_cases hp' : p.1 = k'
      · simp only [mapLookup]
        rw [if_pos hp', if_pos hp']
      · simp only [mapLookup]
        rw [if_neg hp', if_neg hp', ih]

theorem mapLookup_mapDelete {α : Type} (l : List (String × α)) (k k' : String) :
    mapLookup (mapDelete l k) k' = if k' = k then none else mapLookup l k' := by
  induction l with
  | nil => simp [mapDelete, mapLookup]
  | cons p rest ih =>
    simp only [mapDelete]
    by_cases hp : p.1 = k
    · rw [if_pos hp, ih]
      by_cases hk : k' = k
      · rw [if_pos hk, if_pos hk]
      · have hp' : ¬ p.1 = k' := by rw [hp]; exact fun e => hk e.symm
        rw [if_neg hk, if_neg hk]
        simp only [mapLookup]
        rw [if_neg hp']
    · rw [if_neg hp]
      simp only [mapLookup]
      by_cases hp' : p.1 = k'
      · have hk : ¬ k' = k := fun e => hp (by rw [hp', e])
        rw [if_pos hp', if_neg hk, if_pos hp']
      · rw [if_neg hp', ih]
        by_cases hk : k' = k <;> simp [hk, hp']

theorem keys_mapSet_of_mem {α : Type} (l : List (String × α)) (k : String) (v : α)
    (h : k ∈ l.map Prod.fst) : (mapSet l k v).map Prod.fst = l.map Prod.fst := by
  induction l with
  | nil => simp at h
  | cons p rest ih =>
    by_cases hp : p.1 = k
    · simp [mapSet, hp]
    · have : k ∈ rest.map Prod.fst := by
        simp only [List.map_cons, List.mem_cons] at h
        exact h.resolve_left (fun hk => hp hk.symm)
      simp [mapSet, hp, ih this]

theorem keys_mapSet_of_not_mem {α : Type} (l : List (String × α)) (k : String) (v : α)
    (h : ¬ k ∈ l.map Prod.fst) : (mapSet l k v).map Prod.fst = l.map Prod.fst ++ [k] := by
  induction l with
  | nil => simp [mapSet]
  | cons p rest ih =>
    simp only [List.map_cons, List.mem_cons] at h
    push_neg at h
    have hp : ¬ p.1 = k := fun hk => h.1 hk.symm
    simp [mapSet, hp, ih h.2]

theorem keysNodup_mapSet {α : Type} (l : List (String × α)) (k : String) (v : α)
    (h : (l.map Prod.fst).Nodup) : ((mapSet l k v).map Prod.fst).Nodup := by
  by_cases hk : k ∈ l.map Prod.fst
  · rw [keys_mapSet_of_mem l k v hk]; exact h
  · rw [keys_mapSet_of_not_mem l k v hk]
    refine List.Nodup.append h (List.nodup_singleton k) ?_
    intro a ha ha'
    rw [List.mem_singleton] at ha'
    subst ha'
    exact hk ha

theorem length_mapSet_le {α : Type} (l : List (String × α)) (k : String) (v : α) :
    (mapSet l k v).length ≤ l.length + 1 := by
  induction l with
  | nil => simp [mapSet]
  | cons p rest ih =>
    by_cases hp : p.1 = k
    · simp [mapSet, hp]
    · simpa [mapSet, hp] using ih

theorem mapDelete_sublist {α : Type} (l : List (String × α)) (k : String) :
    (mapDelete l k).Sublist l := by
  induction l with
  | nil => simp [mapDelete]
  | cons p rest ih =>
    by_cases hp : p.1 = k
    · simpa [mapDelete, hp] using ih.cons p
    · simpa [mapDelete, hp] using ih.cons₂ p

/-! ## C4: hit-rate arithmetic -/

/-- The relation the statistics actually maintain: `hitRate` is the
percentage `cacheHits / totalRequests * 100`, and `0` before any request. -/
def hitRateSpec (st : TranslationCache) : Prop :=
  st.stats.hitRate =
    if st.stats.totalRequests = 0 then 0
    else (st.stats.cacheHits : Rat) / (st.stats.totalRequests : Rat) * 100

theorem hitRateSpec_cacheGet (st : TranslationCache) (now : Nat)
    (text sourceLanguage targetLanguage : String) :
    hitRateSpec (cacheGet st now text sourceLanguage targetLanguage).2 := by
  cases hm : mapLookup st.memoryCache (generateKey text sourceLanguage targetLanguage) with
  | none => simp [hitRateSpec, cacheGet, updateHitRate, hm]
  | some e =>
    cases he : isExpired now e with
    | false => simp [hitRateSpec, cacheGet, updateHitRate, hm, he]
    | true => simp [hitRateSpec, cacheGet, updateHitRate, hm, he]

theorem cacheSet_stats_preserved (st : TranslationCache) (now : Nat)
    (text translatedText sourceLanguage targetLanguage : String) (confidence : Rat) :
    (cacheSet st now text translatedText sourceLanguage targetLanguage confidence).stats.hitRate
        = st.stats.hitRate ∧
    (cacheSet st now text translatedText sourceLanguage targetLanguage confidence).stats.totalRequests
        = st.stats.totalRequests ∧
    (cacheSet st now text translatedText sourceLanguage targetLanguage confidence).stats.cacheHits
        = st.stats.cacheHits := by
  simp only [cacheSet, evictLeastUsed]
  refine ⟨?_, ?_, ?_⟩ <;> (split <;> simp)

theorem hitRateSpec_cacheSet (st : TranslationCache) (now : Nat)
    (text translatedText sourceLanguage targetLanguage : String) (confidence : Rat)
    (h : hitRateSpec st) :
    hitRateSpec (cacheSet st now text translatedText sourceLanguage targetLanguage confidence) := by
  obtain ⟨h1, h2, h3⟩ :=
    cacheSet_stats_preserved st now text translatedText sourceLanguage targetLanguage confidence
  unfold hitRateSpec at h ⊢
  rw [h1, h2, h3]
  exact h

theorem cleanupExpired_stats_preserved (st : TranslationCache) (now : Nat) :
    (cleanupExpired st now).stats.hitRate = st.stats.hitRate ∧
    (cleanupExpired st now).stats.totalRequests = st.stats.totalRequests ∧
    (cleanupExpired st now).stats.cacheHits = st.stats.cacheHits := by
  simp only [cleanupExpired]
  refine ⟨?_, ?_, ?_⟩ <;> (split <;> simp)

theorem hitRateSpec_cleanupExpired (st : TranslationCache) (now : Nat)
    (h : hitRateSpec st) : hitRateSpec (cleanupExpired st now) := by
  obtain ⟨h1, h2, h3⟩ := cleanupExpired_stats_preserved st now
  unfold hitRateSpec at h ⊢
  rw [h1, h2, h3]
  exact h

theorem hitRateSpec_applyOps (ops : List CacheOp) :
    ∀ st : TranslationCache, hitRateSpec st → hitRateSpec (applyOps st ops) := by
  induction ops with
  | nil => intro st h; simpa [applyOps] using h
  | cons op rest ih =>
    intro st h
    have hstep : hitRateSpec (applyOp st op) := by
      cases op with
      | get now t s tg => exact hitRateSpec_cacheGet st now t s tg
      | set now t tr s tg c => exact hitRateSpec_cacheSet st now t tr s tg c h
      | sweep now => exact hitRateSpec_cleanupExpired st now h
    simpa [applyOps, applyOp] using ih (applyOp st op) hstep

/-- C4, counterexample: starting from the fresh cache, one `set` followed by
one `get` of the same key is a hit, leaving `cacheHits = 1` and
`totalRequests = 1`; the exposed `hitRate` is the percentage `100`, so it is
not `cacheHits / totalRequests = 1` as the claim states. -/
theorem C4_hitRate_counterexample :
    (cacheGet (cacheSet initialCache 0 "hello" "hola" "en" "es" (85 / 100)) 0
        "hello" "en" "es").2.stats.cacheHits = 1 ∧
    (cacheGet (cacheSet initialCache 0 "hello" "hola" "en" "es" (85 / 100)) 0
        "hello" "en" "es").2.stats.totalRequests = 1 ∧
    (cacheGet (cacheSet initialCache 0 "hello" "hola" "en" "es" (85 / 100)) 0
        "hello" "en" "es").2.stats.hitRate = 100 ∧
    ¬ (cacheGet (cacheSet initialCache 0 "hello" "hola" "en" "es" (85 / 100)) 0
        "hello" "en" "es").2.stats.hitRate =
      ((cacheGet (cacheSet initialCache 0 "hello" "hola" "en" "es" (85 / 100)) 0
        "hello" "en" "es").2.stats.cacheHits : Rat) /
      ((cacheGet (cacheSet initialCache 0 "hello" "hola" "en" "es" (85 / 100)) 0
        "hello" "en" "es").2.stats.totalRequests : Rat) := by
  have hh : (cacheGet (cacheSet initialCache 0 "hello" "hola" "en" "es" (85 / 100)) 0
      "hello" "en" "es").2.stats.cacheHits = 1 := by decide
  have ht : (cacheGet (cacheSet initialCache 0 "hello" "hola" "en" "es" (85 / 100)) 0
      "hello" "en" "es").2.stats.totalRequests = 1 := by decide
  have hr : (cacheGet (cacheSet initialCache 0 "hello" "hola" "en" "es" (85 / 100)) 0
      "hello" "en" "es").2.stats.hitRate = 100 := by
    show ((0 + 1 : Nat) : Rat) / ((0 + 1 : Nat) : Rat) * 100 = 100
    norm_num
  refine ⟨hh, ht, hr, ?_⟩
  rw [hr, hh, ht]
  norm_num

/-- C4, amended: for every sequence of cache operations starting from the
fresh cache, the exposed statistic `hitRate` equals
`cacheHits / totalRequests * 100` (a percentage of the requests that hit),
and equals 0 when `totalRequests` is 0. -/
theorem C4_hitRate_percentage (ops : List CacheOp) :
    (applyOps initialCache ops).stats.hitRate =
      if (applyOps initialCache ops).stats.totalRequests = 0 then 0
      else ((applyOps initialCache ops).stats.cacheHits : Rat) /
           ((applyOps initialCache ops).stats.totalRequests : Rat) * 100 :=
  hitRateSpec_applyOps ops initialCache (by simp [hitRateSpec, initialCache])

/-! ## C5: put-then-get and lazy expiry -/

theorem cacheSet_memoryCache_of_small (st : TranslationCache) (now : Nat)
    (text translatedText sourceLanguage targetLanguage : String) (confidence : Rat)
    (h : st.memoryCache.length < maxMemoryEntries) :
    (cacheSet st now text translatedText sourceLanguage targetLanguage confidence).memoryCache
      = mapSet st.memoryCache (generateKey text sourceLanguage targetLanguage)
          (storedEntry text translatedText sourceLanguage targetLanguage confidence now 0) := by
  have hle := length_mapSet_le st.memoryCache (generateKey text sourceLanguage targetLanguage)
    (storedEntry text translatedText sourceLanguage targetLanguage confidence now 0)
  have hnot : ¬ ((mapSet st.memoryCache (generateKey text sourceLanguage targetLanguage)
      (storedEntry text translatedText sourceLanguage targetLanguage confidence now 0)).length
        > maxMemoryEntries) := by
    omega
  simp only [cacheSet, storedEntry] at hnot ⊢
  simp only [hnot, if_false]

/-- C5: when the fast tier is below capacity (so the fresh entry is not the
victim of an eviction pass; evictions are the subject of C6), a `put`
followed by a `get` with the same `(text, sourceLang, targetLang)` key
returns the stored value as long as at most the 24-hour max-age has elapsed
(in particular immediately), and once more than the max-age has elapsed the
`get` returns absent even though the entry is still physically present in
the memory tier (lazy expiry). -/
theorem C5_cache_put_get (st : TranslationCache) (t tnow : Nat)
    (text translatedText sourceLanguage targetLanguage : String) (confidence : Rat)
    (hcap : st.memoryCache.length < maxMemoryEntries) :
    (tnow - t ≤ maxAge →
      (cacheGet (cacheSet st t text translatedText sourceLanguage targetLanguage confidence)
          tnow text sourceLanguage targetLanguage).1 =
        some (storedEntry text translatedText sourceLanguage targetLanguage confidence t 1)) ∧
    (tnow - t > maxAge →
      (cacheGet (cacheSet st t text translatedText sourceLanguage targetLanguage confidence)
          tnow text sourceLanguage targetLanguage).1 = none ∧
      mapLookup (cacheSet st t text translatedText sourceLanguage targetLanguage
          confidence).memoryCache (generateKey text sourceLanguage targetLanguage) ≠ none) := by
  have hmem := cacheSet_memoryCache_of_small st t text translatedText sourceLanguage
    targetLanguage confidence hcap
  have hlook : mapLookup (cacheSet st t text translatedText sourceLanguage targetLanguage
      confidence).memoryCache (generateKey text sourceLanguage targetLanguage) =
      some (storedEntry text translatedText sourceLanguage targetLanguage confidence t 0) := by
    rw [hmem]
    exact mapLookup_mapSet_self _ _ _
  constructor
  · intro hfresh
    have hexp : isExpired tnow
        (storedEntry text translatedText sourceLanguage targetLanguage confidence t 0) = false := by
      simp [isExpired, storedEntry]
      omega
    simp only [cacheGet, hlook]
    rw [hexp]
    simp [storedEntry]
  · intro hold
    have hexp : isExpired tnow
        (storedEntry text translatedText sourceLanguage targetLanguage confidence t 0) = true := by
      simp [isExpired, storedEntry]
      omega
    refine ⟨?_, ?_⟩
    · simp only [cacheGet, hlook]
      rw [hexp]
      simp
    · rw [hlook]
      exact Option.some_ne_none _

/-- C5, witness: on the fresh cache, a put of `("hello", en, es)` at time 0
read back at time 0 returns the stored value; read back just past the
24-hour max-age it is absent while still physically present. -/
theorem C5_cache_put_get_witness :
    ((cacheGet (cacheSet initialCache 0 "hello" "hola" "en" "es" (85 / 100)) 0
        "hello" "en" "es").1 =
      some (storedEntry "hello" "hola" "en" "es" (85 / 100) 0 1)) ∧
    ((cacheGet (cacheSet initialCache 0 "hello" "hola" "en" "es" (85 / 100)) (maxAge + 1)
        "hello" "en" "es").1 = none ∧
      mapLookup (cacheSet initialCache 0 "hello" "hola" "en" "es"
          (85 / 100)).memoryCache (generateKey "hello" "en" "es") ≠ none) :=
  ⟨(C5_cache_put_get initialCache 0 0 "hello" "hola" "en" "es" (85 / 100)
      (by decide)).1 (by decide),
   (C5_cache_put_get initialCache 0 (maxAge + 1) "hello" "hola" "en" "es" (85 / 100)
      (by decide)).2 (by decide)⟩

/-! ## C6: eviction bound -/

theorem mapDelete_eq_filter {α : Type} (l : List (String × α)) (k : String) :
    mapDelete l k = l.filter (fun p => ¬ p.1 = k) := by
  induction l with
  | nil => simp [mapDelete]
  | cons p rest ih => by_cases hp : p.1 = k <;> simp [mapDelete, hp, ih]

theorem foldl_mapDelete_eq_filter {α : Type} (ks : List String) (m : List (String × α)) :
    ks.foldl (fun acc k => mapDelete acc k) m = m.filter (fun p => ¬ p.1 ∈ ks) := by
  induction ks generalizing m with
  | nil => simp
  | cons k ks ih =>
    rw [List.foldl_cons, ih, mapDelete_eq_filter, List.filter_filter]
    apply List.filter_congr
    intro p hp
    simp [List.mem_cons, not_or, Bool.and_comm]

/-- On a list whose `f`-keys are duplicate-free, keeping the elements whose
key is not among the keys of the first `n` elements keeps exactly the
elements past the first `n`. -/
theorem filter_keys_drop {α β : Type} [DecidableEq β] (f : α → β) (l : List α) (n : Nat)
    (h : (l.map f).Nodup) :
    l.filter (fun p => ¬ f p ∈ (l.take n).map f) = l.drop n := by
  induction l generalizing n with
  | nil => simp
  | cons a l ih =>
    have h2 : (f a :: l.map f).Nodup := by simpa using h
    have hcons := List.nodup_cons.mp h2
    cases n with
    | zero => simp
    | succ n =>
      simp only [List.take_succ_cons, List.map_cons, List.drop_succ_cons, List.filter_cons]
      have ha : ¬ (f a ∉ f a :: (l.take n).map f) := by simp
      simp only [decide_not]
      rw [if_neg (by simp)]
      have hcong : l.filter (fun p => ¬ f p ∈ f a :: (l.take n).map f)
          = l.filter (fun p => ¬ f p ∈ (l.take n).map f) := by
        apply List.filter_congr
        intro p hp
        have hne : f p ≠ f a := by
          intro he
          exact hcons.1 (he ▸ List.mem_map_of_mem f hp)
        simp [List.mem_cons, hne]
      have hih := ih n hcons.2
      simp only [decide_not] at hcong hih
      rw [hcong, hih]

theorem evictLeastUsed_spec (st : TranslationCache)
    (hnd : (st.memoryCache.map Prod.fst).Nodup)
    (hlen : maxMemoryEntries / 10 ≤ st.memoryCache.length) :
    (evictLeastUsed st).memoryCache.length
        = st.memoryCache.length - maxMemoryEntries / 10 ∧
    ((evictLeastUsed st).memoryCache.map Prod.fst).Nodup ∧
    (∀ p ∈ st.memoryCache, p.1 ∉ (evictLeastUsed st).memoryCache.map Prod.fst →
      ∀ q ∈ (evictLeastUsed st).memoryCache, p.2.hitCount ≤ q.2.hitCount) := by
  set m := st.memoryCache with hm
  set sorted := List.insertionSort hitLE m with hsorted
  have hperm : sorted.Perm m := List.perm_insertionSort hitLE m
  have hpermkeys : (sorted.map Prod.fst).Perm (m.map Prod.fst) := hperm.map Prod.fst
  have hndsorted : (sorted.map Prod.fst).Nodup := hpermkeys.nodup_iff.mpr hnd
  have hsortedsorted : List.Sorted hitLE sorted := List.sorted_insertionSort hitLE m
  have hsplit : sorted.take (maxMemoryEntries / 10) ++ sorted.drop (maxMemoryEntries / 10)
      = sorted := List.take_append_drop _ _
  have hres : (evictLeastUsed st).memoryCache =
      m.filter (fun p => ¬ p.1 ∈ (sorted.take (maxMemoryEntries / 10)).map Prod.fst) := by
    simp only [evictLeastUsed, foldl_mapDelete_eq_filter]
  have hfiltersorted : sorted.filter
      (fun p => ¬ p.1 ∈ (sorted.take (maxMemoryEntries / 10)).map Prod.fst)
      = sorted.drop (maxMemoryEntries / 10) :=
    filter_keys_drop Prod.fst sorted (maxMemoryEntries / 10) hndsorted
  have hresperm : (evictLeastUsed st).memoryCache.Perm
      (sorted.drop (maxMemoryEntries / 10)) := by
    rw [hres, ← hfiltersorted]
    exact (hperm.filter _).symm
  refine ⟨?_, ?_, ?_⟩
  · rw [hresperm.length_eq, List.length_drop, hperm.length_eq]
  · have hsub : (evictLeastUsed st).memoryCache.Sublist m := by
      rw [hres]
      exact List.filter_sublist m
    exact hnd.sublist (hsub.map Prod.fst)
  · intro p hpm hpk q hq
    have hpairwise : ∀ x ∈ sorted.take (maxMemoryEntries / 10),
        ∀ y ∈ sorted.drop (maxMemoryEntries / 10), hitLE x y := by
      have hs := hsortedsorted
      rw [List.Sorted, ← hsplit, List.pairwise_append] at hs
      exact hs.2.2
    have hqdrop : q ∈ sorted.drop (maxMemoryEntries / 10) := hresperm.mem_iff.mp hq
    have hptake : p ∈ sorted.take (maxMemoryEntries / 10) := by
      have hpsorted : p ∈ sorted := hperm.mem_iff.mpr hpm
      rw [← hsplit] at hpsorted
      rcases List.mem_append.mp hpsorted with hin | hin
      · exact hin
      · exfalso
        have hpres : p ∈ (evictLeastUsed st).memoryCache := by
          rw [hres]
          rw [← hfiltersorted] at hin
          exact (hperm.filter _).mem_iff.mp hin
        exact hpk (List.mem_map_of_mem Prod.fst hpres)
    exact hpairwise p hptake q hqdrop

theorem cacheSet_memoryCache_eq (st : TranslationCache) (now : Nat)
    (text translatedText sourceLanguage targetLanguage : String) (confidence : Rat) :
    (cacheSet st now text translatedText sourceLanguage targetLanguage confidence).memoryCache =
      if (mapSet st.memoryCache (generateKey text sourceLanguage targetLanguage)
          (storedEntry text translatedText sourceLanguage targetLanguage confidence now 0)).length
            > maxMemoryEntries then
        (evictLeastUsed (TranslationCache.mk
          (mapSet st.memoryCache (generateKey text sourceLanguage targetLanguage)
            (storedEntry text translatedText sourceLanguage targetLanguage confidence now 0))
          { st.stats with memoryEntries :=
              (mapSet st.memoryCache (generateKey text sourceLanguage targetLanguage)
                (storedEntry text translatedText sourceLanguage targetLanguage
                  confidence now 0)).length })).memoryCache
      else mapSet st.memoryCache (generateKey text sourceLanguage targetLanguage)
          (storedEntry text translatedText sourceLanguage targetLanguage confidence now 0) := by
  simp only [cacheSet]
  split <;> rfl

/-- C6: every insert keeps the fast tier within its capacity bound of
1000 and keeps the key set duplicate-free (so the bound holds after each
put of any sequence of inserts); when the insert pushes the tier past
capacity, exactly `maxMemoryEntries / 10 = 100` entries are evicted — no
more than the one-entry excess plus the 10% margin — and every evicted
entry has a hit count no larger than that of every surviving entry. -/
theorem C6_eviction_bound (st : TranslationCache) (now : Nat)
    (text translatedText sourceLanguage targetLanguage : String) (confidence : Rat)
    (hnd : (st.memoryCache.map Prod.fst).Nodup)
    (hcap : st.memoryCache.length ≤ maxMemoryEntries) :
    (((cacheSet st now text translatedText sourceLanguage targetLanguage
        confidence).memoryCache.map Prod.fst).Nodup) ∧
    (cacheSet st now text translatedText sourceLanguage targetLanguage
        confidence).memoryCache.length ≤ maxMemoryEntries ∧
    ((mapSet st.memoryCache (generateKey text sourceLanguage targetLanguage)
        (storedEntry text translatedText sourceLanguage targetLanguage confidence now 0)).length
          > maxMemoryEntries →
      (mapSet st.memoryCache (generateKey text sourceLanguage targetLanguage)
          (storedEntry text translatedText sourceLanguage targetLanguage confidence now 0)).length
        - (cacheSet st now text translatedText sourceLanguage targetLanguage
            confidence).memoryCache.length = maxMemoryEntries / 10 ∧
      maxMemoryEntries / 10 ≤
        ((mapSet st.memoryCache (generateKey text sourceLanguage targetLanguage)
          (storedEntry text translatedText sourceLanguage targetLanguage confidence now 0)).length
            - maxMemoryEntries) + maxMemoryEntries / 10 ∧
      (∀ p ∈ mapSet st.memoryCache (generateKey text sourceLanguage targetLanguage)
          (storedEntry text translatedText sourceLanguage targetLanguage confidence now 0),
        p.1 ∉ (cacheSet st now text translatedText sourceLanguage targetLanguage
            confidence).memoryCache.map Prod.fst →
        ∀ q ∈ (cacheSet st now text translatedText sourceLanguage targetLanguage
            confidence).memoryCache, p.2.hitCount ≤ q.2.hitCount)) := by
  have hmax : maxMemoryEntries = 1000 := rfl
  have hdiv : maxMemoryEntries / 10 = 100 := rfl
  have hm1nd : ((mapSet st.memoryCache (generateKey text sourceLanguage targetLanguage)
      (storedEntry text translatedText sourceLanguage targetLanguage
        confidence now 0)).map Prod.fst).Nodup :=
    keysNodup_mapSet st.memoryCache _ _ hnd
  have hm1le := length_mapSet_le st.memoryCache (generateKey text sourceLanguage targetLanguage)
    (storedEntry text translatedText sourceLanguage targetLanguage confidence now 0)
  rw [cacheSet_memoryCache_eq]
  by_cases hcond : (mapSet st.memoryCache (generateKey text sourceLanguage targetLanguage)
      (storedEntry text translatedText sourceLanguage targetLanguage
        confidence now 0)).length > maxMemoryEntries
  · rw [if_pos hcond]
    set stMid : TranslationCache := TranslationCache.mk (mapSet st.memoryCache (generateKey text sourceLanguage targetLanguage) (storedEntry text translatedText sourceLanguage targetLanguage confidence now 0)) { st.stats with memoryEntries := (mapSet st.memoryCache (generateKey text sourceLanguage targetLanguage) (storedEntry text translatedText sourceLanguage targetLanguage confidence now 0)).length } with hstMid
    have hmid : stMid.memoryCache = mapSet st.memoryCache
        (generateKey text sourceLanguage targetLanguage)
        (storedEntry text translatedText sourceLanguage targetLanguage confidence now 0) := rfl
    have hspec := evictLeastUsed_spec stMid (by rw [hmid]; exact hm1nd) (by rw [hmid]; omega)
    obtain ⟨hlenr, hndr, hlow⟩ := hspec
    rw [hmid] at hlenr hlow
    refine ⟨hndr, by omega, fun _ => ⟨by omega, by omega, hlow⟩⟩
  · rw [if_neg hcond]
    exact ⟨hm1nd, by omega, fun hgt => absurd hgt hcond⟩

/-- C6, witness: the hypotheses hold at the fresh cache, where the insert
stays within capacity. -/
theorem C6_eviction_bound_witness :
    (((cacheSet initialCache 0 "hello" "hola" "en" "es"
        (85 / 100)).memoryCache.map Prod.fst).Nodup) ∧
    (cacheSet initialCache 0 "hello" "hola" "en" "es"
        (85 / 100)).memoryCache.length ≤ maxMemoryEntries :=
  ⟨(C6_eviction_bound initialCache 0 "hello" "hola" "en" "es" (85 / 100)
      (by decide) (by decide)).1,
   (C6_eviction_bound initialCache 0 "hello" "hola" "en" "es" (85 / 100)
      (by decide) (by decide)).2.1⟩

/-! ## C1, C7, C10: translator client -/

theorem fetchErrorMessage_of_failed (o : FetchOutcome) (h : o.failed) :
    ∃ msg, fetchErrorMessage o = some msg := by
  cases o with
  | networkError m => exact ⟨_, rfl⟩
  | httpError st stx em => exact ⟨_, rfl⟩
  | success c => exact h.elim

theorem translateWithRetryGo_success (env : TransEnv) (text : String) (attempt fuel : Nat)
    (hmsg : fetchErrorMessage (env.fetchOutcome attempt) = none) :
    translateWithRetryGo env text attempt fuel = (attemptResponse env text attempt, 1, []) := by
  cases fuel <;> simp [translateWithRetryGo, hmsg]

theorem translateWithRetryGo_noRetry (env : TransEnv) (text : String) (attempt fuel : Nat)
    (msg : String) (hmsg : fetchErrorMessage (env.fetchOutcome attempt) = some msg)
    (hsr : shouldRetry msg = false) :
    translateWithRetryGo env text attempt fuel = (fallbackResponse text, 1, []) := by
  cases fuel <;> simp [translateWithRetryGo, hmsg, hsr]

theorem translateWithRetryGo_zero (env : TransEnv) (text : String) (attempt : Nat)
    (msg : String) (hmsg : fetchErrorMessage (env.fetchOutcome attempt) = some msg) :
    translateWithRetryGo env text attempt 0 = (fallbackResponse text, 1, []) := by
  simp [translateWithRetryGo, hmsg]

theorem translateWithRetryGo_retry (env : TransEnv) (text : String) (attempt fuel : Nat)
    (msg : String) (hmsg : fetchErrorMessage (env.fetchOutcome attempt) = some msg)
    (hsr : shouldRetry msg = true) :
    translateWithRetryGo env text attempt (fuel + 1) =
      ((translateWithRetryGo env text (attempt + 1) fuel).1,
       (translateWithRetryGo env text (attempt + 1) fuel).2.1 + 1,
       retryDelay * attempt :: (translateWithRetryGo env text (attempt + 1) fuel).2.2) := by
  simp [translateWithRetryGo, hmsg, hsr]

/-- With an endpoint failing on every call, every run of the retry loop
ends in the original-text fallback. -/
theorem translateWithRetryGo_fallback (env : TransEnv) (hfail : alwaysFails env)
    (text : String) :
    ∀ fuel attempt, (translateWithRetryGo env text attempt fuel).1 = fallbackResponse text := by
  intro fuel
  induction fuel with
  | zero =>
    intro attempt
    obtain ⟨msg, hmsg⟩ := fetchErrorMessage_of_failed _ (hfail.1 attempt)
    rw [translateWithRetryGo_zero env text attempt msg hmsg]
  | succ f ih =>
    intro attempt
    obtain ⟨msg, hmsg⟩ := fetchErrorMessage_of_failed _ (hfail.1 attempt)
    cases hsr : shouldRetry msg with
    | false => rw [translateWithRetryGo_noRetry env text attempt (f + 1) msg hmsg hsr]
    | true => rw [translateWithRetryGo_retry env text attempt f msg hmsg hsr]; exact ih (attempt + 1)

theorem translateWithRetry_fallback (env : TransEnv) (hfail : alwaysFails env)
    (text targetLanguage sourceLanguage : String) (attempt : Nat) :
    (translateWithRetry env text targetLanguage sourceLanguage attempt).1 = fallbackResponse text :=
  translateWithRetryGo_fallback env hfail text _ attempt

theorem translateWithRetryGo_attempts_pos (env : TransEnv) (text : String) :
    ∀ fuel attempt, 1 ≤ (translateWithRetryGo env text attempt fuel).2.1 := by
  intro fuel
  induction fuel with
  | zero =>
    intro attempt
    cases hmsg : fetchErrorMessage (env.fetchOutcome attempt) with
    | none => rw [translateWithRetryGo_success env text attempt 0 hmsg]
    | some msg => rw [translateWithRetryGo_zero env text attempt msg hmsg]
  | succ f ih =>
    intro attempt
    cases hmsg : fetchErrorMessage (env.fetchOutcome attempt) with
    | none => rw [translateWithRetryGo_success env text attempt (f + 1) hmsg]
    | some msg =>
      cases hsr : shouldRetry msg with
      | false => rw [translateWithRetryGo_noRetry env text attempt (f + 1) msg hmsg hsr]
      | true =>
        rw [translateWithRetryGo_retry env text attempt f msg hmsg hsr]
        exact Nat.le_add_left 1 _

theorem translateWithRetryGo_attempts_le (env : TransEnv) (text : String) :
    ∀ fuel attempt, (translateWithRetryGo env text attempt fuel).2.1 ≤ fuel + 1 := by
  intro fuel
  induction fuel with
  | zero =>
    intro attempt
    cases hmsg : fetchErrorMessage (env.fetchOutcome attempt) with
    | none => rw [translateWithRetryGo_success env text attempt 0 hmsg]
    | some msg => rw [translateWithRetryGo_zero env text attempt msg hmsg]
  | succ f ih =>
    intro attempt
    cases hmsg : fetchErrorMessage (env.fetchOutcome attempt) with
    | none =>
      rw [translateWithRetryGo_success env text attempt (f + 1) hmsg]
      exact Nat.le_add_left 1 (f + 1)
    | some msg =>
      cases hsr : shouldRetry msg with
      | false =>
        rw [translateWithRetryGo_noRetry env text attempt (f + 1) msg hmsg hsr]
        exact Nat.le_add_left 1 (f + 1)
      | true =>
        rw [translateWithRetryGo_retry env text attempt f msg hmsg hsr]
        have := ih (attempt + 1)
        show (translateWithRetryGo env text (attempt + 1) f).2.1 + 1 ≤ f + 1 + 1
        omega

theorem translateWithRetryGo_delays (env : TransEnv) (text : String) :
    ∀ fuel attempt, (translateWithRetryGo env text attempt fuel).2.2 =
      (List.range ((translateWithRetryGo env text attempt fuel).2.1 - 1)).map
        (fun i => retryDelay * (attempt + i)) := by
  intro fuel
  induction fuel with
  | zero =>
    intro attempt
    cases hmsg : fetchErrorMessage (env.fetchOutcome attempt) with
    | none => rw [translateWithRetryGo_success env text attempt 0 hmsg]; simp
    | some msg => rw [translateWithRetryGo_zero env text attempt msg hmsg]; simp
  | succ f ih =>
    intro attempt
    cases hmsg : fetchErrorMessage (env.fetchOutcome attempt) with
    | none => rw [translateWithRetryGo_success env text attempt (f + 1) hmsg]; simp
    | some msg =>
      cases hsr : shouldRetry msg with
      | false => rw [translateWithRetryGo_noRetry env text attempt (f + 1) msg hmsg hsr]; simp
      | true =>
        rw [translateWithRetryGo_retry env text attempt f msg hmsg hsr]
        have hpos := translateWithRetryGo_attempts_pos env text f (attempt + 1)
        obtain ⟨k, hk⟩ := Nat.exists_eq_add_of_le hpos
        have hih := ih (attempt + 1)
        simp only []
        rw [hih, hk]
        simp only [Nat.add_sub_cancel, Nat.add_sub_cancel_left]
        rw [Nat.add_comm 1 k, List.range_succ_eq_map, List.map_cons, List.map_map]
        refine congrArg₂ List.cons (by simp) ?_
        apply List.map_congr_left
        intro i hi
        simp only [Function.comp_apply, Nat.succ_eq_add_one]
        ring

theorem translateWithRetryGo_attempts_one_of_not_retryable (env : TransEnv) (text : String)
    (fuel attempt : Nat) (msg : String)
    (hmsg : fetchErrorMessage (env.fetchOutcome attempt) = some msg)
    (hsr : shouldRetry msg = false) :
    (translateWithRetryGo env text attempt fuel).2.1 = 1 := by
  rw [translateWithRetryGo_noRetry env text attempt fuel msg hmsg hsr]

theorem translateWithRetryGo_retryable_of_attempts_gt_one (env : TransEnv) (text : String)
    (fuel attempt : Nat)
    (h : 1 < (translateWithRetryGo env text attempt fuel).2.1) :
    ∃ msg, fetchErrorMessage (env.fetchOutcome attempt) = some msg ∧
      shouldRetry msg = true := by
  cases hmsg : fetchErrorMessage (env.fetchOutcome attempt) with
  | none =>
    rw [translateWithRetryGo_success env text attempt fuel hmsg] at h
    exact absurd h (Nat.lt_irrefl 1)
  | some msg =>
    refine ⟨msg, rfl, ?_⟩
    cases hsr : shouldRetry msg with
    | true => rfl
    | false =>
      rw [translateWithRetryGo_attempts_one_of_not_retryable env text fuel attempt msg hmsg hsr] at h
      exact absurd h (Nat.lt_irrefl 1)


/-- An environment whose endpoint is down: every call (translation and
detection alike) rejects with a network fault. -/
def envDown : TransEnv :=
  { apiKey := some "key"
    fetchOutcome := fun _ => .networkError "fetch failed"
    detectOutcome := fun _ => none }

theorem envDown_alwaysFails : alwaysFails envDown :=
  ⟨fun _ => trivial, fun _ => rfl⟩

/-- An environment whose endpoint answers every translation call with
HTTP 429 (rate limit) and whose detection calls fail. -/
def env429 : TransEnv :=
  { apiKey := some "key"
    fetchOutcome := fun _ => .httpError 429 "Too Many Requests" ""
    detectOutcome := fun _ => none }

/-- An environment whose endpoint answers every translation call with
HTTP 503 and whose detection calls fail. -/
def env503 : TransEnv :=
  { apiKey := some "key"
    fetchOutcome := fun _ => .httpError 503 "Service Unavailable" ""
    detectOutcome := fun _ => none }

/-- C1, counterexample: with the endpoint failing on every call, the empty
cache and target language "en", `translateText` resolves through the
same-language fast path (the detector falls back to "en" when its call
fails), returning confidence 0.95 and detected language "en" — not the
claimed confidence 0 and detectedLanguage "unknown". -/
theorem C1_fallback_counterexample :
    (translateText envDown initialCache 0 "Hola" "en" "auto").1 =
      .ok { translatedText := "Hola", detectedLanguage := some "en",
            confidence := some (95 / 100) } ∧
    ¬ (translateText envDown initialCache 0 "Hola" "en" "auto").1 =
      .ok { translatedText := "Hola", detectedLanguage := some "unknown",
            confidence := some 0 } := by
  refine ⟨rfl, fun h => ?_⟩
  have heq : (Except.ok { translatedText := "Hola", detectedLanguage := some "en", confidence := some (95 / 100) } : Except String TranslationResponse) = .ok { translatedText := "Hola", detectedLanguage := some "unknown", confidence := some 0 } :=
    (rfl : (translateText envDown initialCache 0 "Hola" "en" "auto").1 = _).symm.trans h
  simp at heq

/-- C1, amended: if the external endpoint fails on every call and the cache
misses for the request key, `translateText` still resolves (never rejects)
with `translatedText` equal to the original text; for every target language
other than "en" it resolves with confidence 0 and detectedLanguage
"unknown", while for target language "en" the detector's failure default
"en" triggers the same-language fast path, so it resolves with confidence
0.95 and detectedLanguage "en". -/
theorem C1_fallback (env : TransEnv) (st : TranslationCache) (now : Nat)
    (text targetLanguage sourceLanguage : String)
    (hfail : alwaysFails env)
    (htext : ¬ jsTrim text = "")
    (htgt : ¬ targetLanguage = "")
    (hmiss : (cacheGet st now text sourceLanguage targetLanguage).1 = none) :
    (¬ targetLanguage = "en" →
      (translateText env st now text targetLanguage sourceLanguage).1 =
        .ok (fallbackResponse text)) ∧
    (targetLanguage = "en" →
      (translateText env st now text targetLanguage sourceLanguage).1 =
        .ok { translatedText := text, detectedLanguage := some targetLanguage,
              confidence := some (95 / 100) }) := by
  have hdet : detectLanguage env text = "en" := by
    simp [detectLanguage, hfail.2 text]
  cases hget : cacheGet st now text sourceLanguage targetLanguage with
  | mk r st1 =>
    have hr : r = none := by
      rw [hget] at hmiss
      exact hmiss
    subst hr
    constructor
    · intro hne
      have hdne : ¬ detectLanguage env text = targetLanguage := by
        rw [hdet]
        exact fun e => hne e.symm
      have hfb := translateWithRetry_fallback env hfail text targetLanguage sourceLanguage 1
      simp [translateText, htext, htgt, hget, hdne, hfb]
    · intro he
      have hde : detectLanguage env text = targetLanguage := by rw [hdet, he]
      simp [translateText, htext, htgt, hget, hde]

/-- C1, witness: at the always-failing environment, a non-empty text and the
empty cache, both branches of the amended claim are realised. -/
theorem C1_fallback_witness :
    (translateText envDown initialCache 0 "Hola" "es" "auto").1 =
      .ok (fallbackResponse "Hola") ∧
    (translateText envDown initialCache 0 "Hola" "en" "auto").1 =
      .ok { translatedText := "Hola", detectedLanguage := some "en",
            confidence := some (95 / 100) } :=
  ⟨(C1_fallback envDown initialCache 0 "Hola" "es" "auto" envDown_alwaysFails
      (by decide) (by decide) (by decide)).1 (by decide),
   (C1_fallback envDown initialCache 0 "Hola" "en" "auto" envDown_alwaysFails
      (by decide) (by decide) (by decide)).2 rfl⟩

/-- C7, counterexample: a rate-limited response (HTTP 429) is not
classified retryable by `shouldRetry`, so `translateWithRetry` makes
exactly one attempt and falls back — while a 503 server error is retried up
to the full 3 attempts.  The claim that rate-limit failures are retried is
therefore false on the code. -/
theorem C7_retry_counterexample :
    shouldRetry "AI Translation API error: 429 - Too Many Requests" = false ∧
    fetchErrorMessage (env429.fetchOutcome 1) =
      some "AI Translation API error: 429 - Too Many Requests" ∧
    (translateWithRetry env429 "Hello" "es" "auto" 1).2.1 = 1 ∧
    (translateWithRetry env429 "Hello" "es" "auto" 1).1 = fallbackResponse "Hello" ∧
    (translateWithRetry env503 "Hello" "es" "auto" 1).2.1 = 3 := by
  refine ⟨by decide, by decide, by decide, rfl, by decide⟩

/-- C7, amended: on failure the Translator Client retries up to the fixed
maximum of 3 total attempts, waiting `retryDelay * attempt` (1s, then 2s —
linearly increasing, no jitter) before each retry, and only for retryable
failure classes as decided by `shouldRetry` (timeout, network/fetch faults,
and HTTP 500/502/503/504); every other failure — including auth failures
and rate-limit 429 — is never retried: a non-retryable first failure means
exactly one attempt, and more than one attempt implies the first failure
was retryable. -/
theorem C7_retry_policy (env : TransEnv) (text targetLanguage sourceLanguage : String) :
    (translateWithRetry env text targetLanguage sourceLanguage 1).2.1 ≤ maxRetries ∧
    1 ≤ (translateWithRetry env text targetLanguage sourceLanguage 1).2.1 ∧
    (translateWithRetry env text targetLanguage sourceLanguage 1).2.2 =
      (List.range ((translateWithRetry env text targetLanguage sourceLanguage 1).2.1 - 1)).map
        (fun i => retryDelay * (1 + i)) ∧
    (∀ msg, fetchErrorMessage (env.fetchOutcome 1) = some msg → shouldRetry msg = false →
      (translateWithRetry env text targetLanguage sourceLanguage 1).2.1 = 1) ∧
    (1 < (translateWithRetry env text targetLanguage sourceLanguage 1).2.1 →
      ∃ msg, fetchErrorMessage (env.fetchOutcome 1) = some msg ∧ shouldRetry msg = true) :=
  ⟨translateWithRetryGo_attempts_le env text (maxRetries - 1) 1,
   translateWithRetryGo_attempts_pos env text (maxRetries - 1) 1,
   translateWithRetryGo_delays env text (maxRetries - 1) 1,
   fun msg hmsg hsr =>
     translateWithRetryGo_attempts_one_of_not_retryable env text (maxRetries - 1) 1 msg hmsg hsr,
   fun h => translateWithRetryGo_retryable_of_attempts_gt_one env text (maxRetries - 1) 1 h⟩

/-- C7, witness: the non-retryable branch instantiated at the rate-limited
environment, giving a single attempt. -/
theorem C7_retry_policy_witness :
    (translateWithRetry env429 "Hello" "es" "auto" 1).2.1 = 1 :=
  (C7_retry_policy env429 "Hello" "es" "auto").2.2.2.1
    "AI Translation API error: 429 - Too Many Requests" (by decide) (by decide)

/-- C10: the orchestrator-facing wrapper `translateMessage` is total: on
every input for which `translateText` rejects (empty or whitespace-only
text, missing target language) or the translator cannot be constructed
(missing API key), it resolves with the original text, confidence 0 and
detectedLanguage equal to the given source language; and on those
validation inputs `translateText` itself does reject. -/
theorem C10_translateMessage_total (env : TransEnv) (st : TranslationCache) (now : Nat)
    (text targetLanguage sourceLanguage : String) :
    (jsTrim text = "" ∨ targetLanguage = "" ∨ env.apiKey = none →
      (translateMessage env st now text targetLanguage sourceLanguage).1 =
        { translatedText := text, detectedLanguage := some sourceLanguage,
          confidence := some 0 }) ∧
    (jsTrim text = "" ∨ targetLanguage = "" →
      ∃ e, (translateText env st now text targetLanguage sourceLanguage).1 = .error e) := by
  have herr : jsTrim text = "" ∨ targetLanguage = "" →
      ∃ e, (translateText env st now text targetLanguage sourceLanguage).1 = .error e := by
    intro h
    by_cases ht : jsTrim text = ""
    · exact ⟨"Text is required for translation", by simp [translateText, ht]⟩
    · have htg : targetLanguage = "" := h.resolve_left ht
      exact ⟨"Target language is required", by simp [translateText, ht, htg]⟩
  refine ⟨?_, herr⟩
  intro h
  cases hapi : env.apiKey with
  | none => simp [translateMessage, hapi]
  | some k =>
    have hval : jsTrim text = "" ∨ targetLanguage = "" := by
      rcases h with h1 | h2 | h3
      · exact Or.inl h1
      · exact Or.inr h2
      · rw [hapi] at h3
        exact absurd h3 (by simp)
    obtain ⟨e, he⟩ := herr hval
    cases htt : translateText env st now text targetLanguage sourceLanguage with
    | mk r st1 =>
      have hr : r = .error e := by
        rw [htt] at he
        exact he
      subst hr
      simp [translateMessage, hapi, htt]

/-- C10, witness: whitespace-only text resolves to the fallback and makes
`translateText` reject. -/
theorem C10_translateMessage_total_witness :
    (translateMessage envDown initialCache 0 "   " "es" "auto").1 =
      { translatedText := "   ", detectedLanguage := some "auto",
        confidence := some 0 } ∧
    ∃ e, (translateText envDown initialCache 0 "   " "es" "auto").1 = .error e :=
  ⟨(C10_translateMessage_total envDown initialCache 0 "   " "es" "auto").1
      (Or.inl (by decide)),
   (C10_translateMessage_total envDown initialCache 0 "   " "es" "auto").2
      (Or.inl (by decide))⟩

/-! ## C3, C9: connection registry -/

theorem mapLookup_eq_none_of_not_mem {α : Type} (l : List (String × α)) (k : String)
    (h : ¬ k ∈ l.map Prod.fst) : mapLookup l k = none := by
  induction l with
  | nil => rfl
  | cons p rest ih =>
    simp only [List.map_cons, List.mem_cons] at h
    push_neg at h
    have hp : ¬ p.1 = k := fun e => h.1 e.symm
    simp [mapLookup, hp, ih h.2]

/-- `broadcastToUser` through the lens of a single connection id: the
connection is deleted when it is owned by the user and closed, enqueued
when owned and open, untouched otherwise.  The subscription index is not
consulted at all. -/
theorem broadcastToUser_lookup_list (u message cid : String) :
    ∀ conns : List (String × Conn), (conns.map Prod.fst).Nodup →
    mapLookup (conns.filterMap (fun p =>
      if p.2.userId = u then
        if p.2.closed then none
        else some (p.1, { p.2 with queue := p.2.queue ++ [message] })
      else some p)) cid =
      match mapLookup conns cid with
      | none => none
      | some c =>
          if c.userId = u then
            if c.closed then none else some { c with queue := c.queue ++ [message] }
          else some c := by
  intro conns
  induction conns with
  | nil => intro _; rfl
  | cons p rest ih =>
    intro hnd
    have hnd2 : ¬ p.1 ∈ rest.map Prod.fst ∧ (rest.map Prod.fst).Nodup := by
      simpa using List.nodup_cons.mp hnd
    have ihr := ih hnd2.2
    by_cases hp : p.1 = cid
    · have hrest : mapLookup rest cid = none :=
        mapLookup_eq_none_of_not_mem rest cid (hp ▸ hnd2.1)
      by_cases hu : p.2.userId = u
      · by_cases hcl : p.2.closed
        · simp only [List.filterMap_cons]
          rw [if_pos hu, if_pos hcl]
          rw [ihr, hrest]
          simp [mapLookup, hp, hu, hcl]
        · simp only [List.filterMap_cons]
          rw [if_pos hu, if_neg hcl]
          simp [mapLookup, hp, hu, hcl]
      · simp only [List.filterMap_cons]
        rw [if_neg hu]
        simp [mapLookup, hp, hu]
    · by_cases hu : p.2.userId = u
      · by_cases hcl : p.2.closed
        · simp only [List.filterMap_cons]
          rw [if_pos hu, if_pos hcl]
          rw [ihr]
          simp [mapLookup, hp]
        · simp only [List.filterMap_cons]
          rw [if_pos hu, if_neg hcl]
          simp [mapLookup, hp, ihr]
      · simp only [List.filterMap_cons]
        rw [if_neg hu]
        simp [mapLookup, hp, ihr]

theorem broadcastToUser_lookup (st : Registry) (u message cid : String)
    (hnd : (st.connections.map Prod.fst).Nodup) :
    mapLookup (broadcastToUser st u message).connections cid =
      match mapLookup st.connections cid with
      | none => none
      | some c =>
          if c.userId = u then
            if c.closed then none else some { c with queue := c.queue ++ [message] }
          else some c :=
  broadcastToUser_lookup_list u message cid st.connections hnd

/-- The concrete registry of the C3 counterexample: one closed connection
`c1` owned by user `u`, subscribed to conversation `v`. -/
def regC3 : Registry :=
  { connections := [("c1", { userId := "u", closed := true, queue := [] })]
    conversationSubscribers := [("v", ["c1"])] }

/-- C3, counterexample: after `broadcastToUser` hits the push failure on
`c1`, the connection is gone from the connection table but still present in
conversation `v`'s subscriber set, so it is not absent from both tables,
and the index-table consistency invariant is broken by this operation. -/
theorem C3_selfheal_counterexample :
    mapLookup (broadcastToUser regC3 "u" "m").connections "c1" = none ∧
    mapLookup (broadcastToUser regC3 "u" "m").conversationSubscribers "v" = some ["c1"] ∧
    ¬ registryConsistent (broadcastToUser regC3 "u" "m") := by
  refine ⟨by decide, by decide, fun h => ?_⟩
  have := h "v" ["c1"] (by decide) "c1" (by decide)
  exact this (by decide)

/-- C3, amended: after `broadcastToUser` encounters a push failure on a
connection, that connection is absent from the connection table on
subsequent calls, but the conversation-subscription index is left entirely
unchanged — a stale subscriber entry survives until a later
`broadcastToConversation` on that conversation removes it — so the
index-table consistency invariant is not preserved by `broadcastToUser`. -/
theorem C3_broadcastToUser_selfheal (st : Registry) (userId message cid : String) (c : Conn)
    (hnd : (st.connections.map Prod.fst).Nodup)
    (hc : mapLookup st.connections cid = some c)
    (hu : c.userId = userId) (hcl : c.closed = true) :
    mapLookup (broadcastToUser st userId message).connections cid = none ∧
    (broadcastToUser st userId message).conversationSubscribers =
      st.conversationSubscribers := by
  refine ⟨?_, rfl⟩
  rw [broadcastToUser_lookup st userId message cid hnd, hc]
  simp [hu, hcl]

/-- C3, witness: the amended claim at the concrete one-connection
registry. -/
theorem C3_broadcastToUser_selfheal_witness :
    mapLookup (broadcastToUser regC3 "u" "m").connections "c1" = none ∧
    (broadcastToUser regC3 "u" "m").conversationSubscribers =
      regC3.conversationSubscribers :=
  C3_broadcastToUser_selfheal regC3 "u" "m" "c1"
    { userId := "u", closed := true, queue := [] } (by decide) (by decide) rfl rfl

/-- The state of the connection with id `k` after the broadcast loop has
processed the subscriber ids in `P` (starting from table `C0`): processed
open connections have the message enqueued, processed closed connections
are deleted, everything else is untouched. -/
def connAfter (C0 : List (String × Conn)) (message : String) (P : List String)
    (k : String) : Option Conn :=
  match mapLookup C0 k with
  | none => none
  | some c =>
      if k ∈ P then
        if c.closed then none else some { c with queue := c.queue ++ [message] }
      else some c

/-- The subscriber set after the loop has processed the ids in `P`: the ids
of `L` except the processed ones that turned out dead. -/
def subsAfter (C0 : List (String × Conn)) (L P : List String) : List String :=
  L.filter (fun cid => !(decide (cid ∈ P) && !liveConn C0 cid))

/-- Loop invariant of `broadcastToConversation`, relating the accumulator
after processing the prefix `P` of the subscriber list `L` to the starting
connection table `C0`. -/
def broadcastInv (C0 : List (String × Conn)) (L : List String) (message : String)
    (P : List String) (acc : BroadcastAcc) : Prop :=
  (∀ k, mapLookup acc.connections k = connAfter C0 message P k) ∧
  (acc.connections.map Prod.fst).Nodup ∧
  acc.subs = subsAfter C0 L P ∧
  acc.successCount = P.countP (fun cid => liveConn C0 cid) ∧
  acc.failureCount = P.countP (fun cid => !liveConn C0 cid) ∧
  acc.failedConnections = P.filter (fun cid => !liveConn C0 cid)

theorem connAfter_nil (C0 : List (String × Conn)) (message : String) (k : String) :
    connAfter C0 message [] k = mapLookup C0 k := by
  unfold connAfter
  cases mapLookup C0 k <;> simp

theorem connAfter_snoc (C0 : List (String × Conn)) (message : String) (P : List String)
    (cid k : String) :
    connAfter C0 message (P ++ [cid]) k =
      if k = cid then
        match mapLookup C0 k with
        | none => none
        | some c => if c.closed then none else some { c with queue := c.queue ++ [message] }
      else connAfter C0 message P k := by
  unfold connAfter
  cases mapLookup C0 k with
  | none => simp
  | some c =>
    by_cases hk : k = cid
    · simp [hk, List.mem_append]
    · simp [hk, List.mem_append]

theorem filter_erase_of_nodup {α : Type} [DecidableEq α] (L : List α) (hnd : L.Nodup)
    (q : α → Bool) (a : α) :
    (L.filter q).erase a = L.filter (fun x => q x && !(x == a)) := by
  induction L with
  | nil => simp
  | cons b rest ih =>
    have hb := List.nodup_cons.mp hnd
    by_cases hq : q b
    · by_cases hab : b = a
      · subst hab
        rw [List.filter_cons_of_pos hq, List.erase_cons_head, List.filter_cons_of_neg
          (by simp [hq])]
        apply (List.filter_congr ?_).symm
        intro x hx
        have hxb : ¬ x = b := fun e => hb.1 (e ▸ hx)
        simp [hxb]
      · rw [List.filter_cons_of_pos hq, List.erase_cons_tail (by simpa using hab),
          List.filter_cons_of_pos (by simp [hq, hab]), ih hb.2]
    · rw [List.filter_cons_of_neg (by simpa using hq), List.filter_cons_of_neg
        (by simp [hq]), ih hb.2]

theorem liveConn_none (C0 : List (String × Conn)) (cid : String)
    (h : mapLookup C0 cid = none) : liveConn C0 cid = false := by
  simp [liveConn, h]

theorem liveConn_some (C0 : List (String × Conn)) (cid : String) (c : Conn)
    (h : mapLookup C0 cid = some c) : liveConn C0 cid = !c.closed := by
  simp [liveConn, h]

theorem subsAfter_snoc_live (C0 : List (String × Conn)) (L P : List String) (cid : String)
    (hlive : liveConn C0 cid = true) :
    subsAfter C0 L (P ++ [cid]) = subsAfter C0 L P := by
  unfold subsAfter
  apply List.filter_congr
  intro x hx
  by_cases hxc : x = cid
  · simp [hxc, hlive, List.mem_append]
  · simp [List.mem_append, hxc]

theorem subsAfter_snoc_dead (C0 : List (String × Conn)) (L P : List String) (cid : String)
    (hnd : L.Nodup) (hnp : ¬ cid ∈ P) (hlive : liveConn C0 cid = false) :
    (subsAfter C0 L P).erase cid = subsAfter C0 L (P ++ [cid]) := by
  unfold subsAfter
  rw [filter_erase_of_nodup L hnd _ cid]
  apply List.filter_congr
  intro x hx
  by_cases hxc : x = cid
  · simp [hxc, hlive, hnp, List.mem_append]
  · simp [List.mem_append, hxc]

theorem broadcastInv_init (C0 : List (String × Conn)) (L : List String) (message : String)
    (hcnd : (C0.map Prod.fst).Nodup) :
    broadcastInv C0 L message [] ⟨C0, L, 0, 0, []⟩ := by
  refine ⟨fun k => (connAfter_nil C0 message k).symm, hcnd, ?_, rfl, rfl, rfl⟩
  show L = subsAfter C0 L []
  unfold subsAfter
  simp

theorem broadcastInv_step (C0 : List (String × Conn)) (L : List String) (message : String)
    (hL : L.Nodup) (P : List String) (acc : BroadcastAcc) (cid : String)
    (hnp : ¬ cid ∈ P) (hinv : broadcastInv C0 L message P acc) :
    broadcastInv C0 L message (P ++ [cid]) (broadcastStep message acc cid) := by
  obtain ⟨hconn, hnd2, hsubs, hsucc, hfail, hfailed⟩ := hinv
  have hcur : mapLookup acc.connections cid = mapLookup C0 cid := by
    rw [hconn cid]
    unfold connAfter
    cases mapLookup C0 cid <;> simp [hnp]
  cases hC : mapLookup C0 cid with
  | none =>
    have hlive : liveConn C0 cid = false := liveConn_none C0 cid hC
    have hcur2 : mapLookup acc.connections cid = none := by rw [hcur, hC]
    refine ⟨?_, ?_, ?_, ?_, ?_, ?_⟩ <;>
      simp only [broadcastStep, hcur2]
    · intro k
      rw [connAfter_snoc]
      by_cases hk : k = cid
      · rw [if_pos hk, hk, hC, hconn cid]
        unfold connAfter
        rw [hC]
      · rw [if_neg hk, hconn k]
    · exact hnd2
    · rw [hsubs]
      exact subsAfter_snoc_dead C0 L P cid hL hnp hlive
    · rw [hsucc, List.countP_append]
      simp [hlive]
    · rw [hfail, List.countP_append]
      simp [hlive]
    · rw [hfailed, List.filter_append]
      simp [hlive]
  | some c =>
    have hcur2 : mapLookup acc.connections cid = some c := by rw [hcur, hC]
    cases hcl : c.closed with
    | true =>
      have hlive : liveConn C0 cid = false := by rw [liveConn_some C0 cid c hC, hcl]; rfl
      refine ⟨?_, ?_, ?_, ?_, ?_, ?_⟩ <;>
        simp only [broadcastStep, hcur2, hcl, if_true]
      · intro k
        rw [connAfter_snoc, mapLookup_mapDelete]
        by_cases hk : k = cid
        · rw [if_pos hk, if_pos hk, hk, hC]
          simp [hcl]
        · rw [if_neg hk, if_neg hk, hconn k]
      · have hsub := mapDelete_sublist acc.connections cid
        exact hnd2.sublist (hsub.map Prod.fst)
      · rw [hsubs]
        exact subsAfter_snoc_dead C0 L P cid hL hnp hlive
      · rw [hsucc, List.countP_append]
        simp [hlive]
      · rw [hfail, List.countP_append]
        simp [hlive]
      · rw [hfailed, List.filter_append]
        simp [hlive]
    | false =>
      have hlive : liveConn C0 cid = true := by rw [liveConn_some C0 cid c hC, hcl]; rfl
      refine ⟨?_, ?_, ?_, ?_, ?_, ?_⟩ <;>
        simp only [broadcastStep, hcur2, hcl, if_false, Bool.false_eq_true]
      · intro k
        rw [connAfter_snoc]
        by_cases hk : k = cid
        · rw [if_pos hk, hk, hC, mapLookup_mapSet_self]
          simp [hcl]
        · rw [if_neg hk, mapLookup_mapSet_ne _ _ _ _ hk, hconn k]
      · exact keysNodup_mapSet acc.connections cid _ hnd2
      · rw [hsubs]
        exact (subsAfter_snoc_live C0 L P cid hlive).symm
      · rw [hsucc, List.countP_append]
        simp [hlive]
      · rw [hfail, List.countP_append]
        simp [hlive]
      · rw [hfailed, List.filter_append]
        simp [hlive]

theorem broadcastInv_foldl (C0 : List (String × Conn)) (L : List String) (message : String)
    (hL : L.Nodup) :
    ∀ (rest P : List String) (acc : BroadcastAcc),
      (∀ x ∈ rest, ¬ x ∈ P) → rest.Nodup →
      broadcastInv C0 L message P acc →
      broadcastInv C0 L message (P ++ rest) (rest.foldl (broadcastStep message) acc) := by
  intro rest
  induction rest with
  | nil =>
    intro P acc _ _ hinv
    simpa using hinv
  | cons cid cs ih =>
    intro P acc hdisj hnd hinv
    have hstep := broadcastInv_step C0 L message hL P acc cid
      (hdisj cid (List.mem_cons_self cid cs)) hinv
    have hnd2 := List.nodup_cons.mp hnd
    have hres := ih (P ++ [cid]) (broadcastStep message acc cid)
      (fun x hx => by
        simp only [List.mem_append, List.mem_singleton]
        push_neg
        exact ⟨hdisj x (List.mem_cons_of_mem cid hx), fun e => hnd2.1 (e ▸ hx)⟩)
      hnd2.2 hstep
    simpa [List.append_assoc] using hres

theorem subsAfter_full (C0 : List (String × Conn)) (L : List String) :
    subsAfter C0 L L = L.filter (fun cid => liveConn C0 cid) := by
  unfold subsAfter
  apply List.filter_congr
  intro x hx
  simp [hx]

theorem countP_liveConn_sum (C0 : List (String × Conn)) (L : List String) :
    L.countP (fun cid => liveConn C0 cid) + L.countP (fun cid => !liveConn C0 cid)
      = L.length := by
  induction L with
  | nil => rfl
  | cons a L ih => cases h : liveConn C0 a <;> simp [List.countP_cons, h] <;> omega

/-- The registry of the C9 counterexample: one live connection, and a
conversation `v` whose subscriber set has become empty. -/
def regC9 : Registry :=
  { connections := [("c1", Conn.mk "u1" false [])]
    conversationSubscribers := [("v", [])] }

/-- C9, counterexample: for a conversation whose subscriber set is empty,
`broadcastToConversation` takes the early return and produces
`{success: false, reason: 'no_subscribers', count: 0}` — not the
delivered/failed/total-subscriber counts structure the claim promises for
every conversation. -/
theorem C9_noSubscribers_counterexample :
    broadcastToConversation regC9 "v" "m" = (.noSubscribers, regC9) ∧
    (broadcastToConversation regC9 "v" "m").1.isCounts = false := by
  refine ⟨by decide, by decide⟩

/-- C9, amended: `broadcastToConversation` never throws, and behaves in two
regimes.  For a conversation with no subscriber entry, or whose subscriber
set is empty, it takes the early return `{success: false, reason:
'no_subscribers', count: 0}` and leaves the registry unchanged.  For a
conversation with a non-empty subscriber set it attempts a push to every
subscribed connection — every live subscribed connection receives the
payload — and returns the delivered and failed counts (summing to the
number of subscribers at call time) together with the failed connection
ids and the post-cleanup subscriber count. -/
theorem C9_broadcastToConversation (st : Registry) (conversationId message : String)
    (hcnd : (st.connections.map Prod.fst).Nodup) :
    (mapLookup st.conversationSubscribers conversationId = none →
      broadcastToConversation st conversationId message = (.noSubscribers, st)) ∧
    (∀ subs, mapLookup st.conversationSubscribers conversationId = some subs →
      subs.Nodup →
      ((subs = [] →
        broadcastToConversation st conversationId message = (.noSubscribers, st)) ∧
       (¬ subs = [] →
        (broadcastToConversation st conversationId message).1 =
          .counts (subs.countP (fun cid => liveConn st.connections cid))
                  (subs.countP (fun cid => !liveConn st.connections cid))
                  (subs.filter (fun cid => !liveConn st.connections cid))
                  ((subs.filter (fun cid => liveConn st.connections cid)).length) ∧
        subs.countP (fun cid => liveConn st.connections cid) +
          subs.countP (fun cid => !liveConn st.connections cid) = subs.length ∧
        (∀ cid ∈ subs, ∀ c, mapLookup st.connections cid = some c → c.closed = false →
          mapLookup (broadcastToConversation st conversationId message).2.connections cid =
            some { c with queue := c.queue ++ [message] })))) := by
  refine ⟨?_, ?_⟩
  · intro hnone
    simp [broadcastToConversation, hnone]
  · intro subs hs hnd
    refine ⟨?_, ?_⟩
    · intro hemp
      subst hemp
      simp [broadcastToConversation, hs]
    · intro hne
      have hinv := broadcastInv_foldl st.connections subs message hnd subs []
        ⟨st.connections, subs, 0, 0, []⟩ (by simp) hnd
        (broadcastInv_init st.connections subs message hcnd)
      rw [List.nil_append] at hinv
      obtain ⟨hconn, hnd2, hsubs, hsucc, hfail, hfailed⟩ := hinv
      refine ⟨?_, countP_liveConn_sum st.connections subs, ?_⟩
      · simp only [broadcastToConversation, hs]
        rw [if_neg hne]
        dsimp only
        rw [hsucc, hfail, hfailed, hsubs, subsAfter_full]
      · intro cid hcid c hC hcl
        simp only [broadcastToConversation, hs]
        rw [if_neg hne]
        dsimp only
        rw [hconn cid]
        unfold connAfter
        rw [hC]
        simp [hcid, hcl]

/-- C9, witness: a conversation with one live and one dead subscriber — one
delivery, one failure, the live connection got the payload — and the empty
conversation `w` takes the `no_subscribers` early return. -/
theorem C9_broadcastToConversation_witness :
    (broadcastToConversation (Registry.mk
        [("c1", Conn.mk "u1" false []), ("c2", Conn.mk "u2" true [])]
        [("v", ["c1", "c2"]), ("w", [])]) "v" "m").1 =
      .counts 1 1 ["c2"] 1 ∧
    mapLookup (broadcastToConversation (Registry.mk
        [("c1", Conn.mk "u1" false []), ("c2", Conn.mk "u2" true [])]
        [("v", ["c1", "c2"]), ("w", [])]) "v" "m").2.connections "c1" =
      some (Conn.mk "u1" false ["m"]) ∧
    broadcastToConversation (Registry.mk
        [("c1", Conn.mk "u1" false []), ("c2", Conn.mk "u2" true [])]
        [("v", ["c1", "c2"]), ("w", [])]) "w" "m" =
      (.noSubscribers, Registry.mk
        [("c1", Conn.mk "u1" false []), ("c2", Conn.mk "u2" true [])]
        [("v", ["c1", "c2"]), ("w", [])]) := by
  have h := (C9_broadcastToConversation (Registry.mk
      [("c1", Conn.mk "u1" false []), ("c2", Conn.mk "u2" true [])]
      [("v", ["c1", "c2"]), ("w", [])]) "v" "m" (by decide)).2
    ["c1", "c2"] (by decide) (by decide)
  have hw := ((C9_broadcastToConversation (Registry.mk
      [("c1", Conn.mk "u1" false []), ("c2", Conn.mk "u2" true [])]
      [("v", ["c1", "c2"]), ("w", [])]) "w" "m" (by decide)).2
    [] (by decide) (by decide)).1 rfl
  refine ⟨?_, ?_, hw⟩
  · rw [(h.2 (by decide)).1]
    decide
  · exact (h.2 (by decide)).2.2 "c1" (by decide) (Conn.mk "u1" false []) (by decide) rfl

/-! ## C2, C8: message fan-out route -/

theorem countP_not_sum {α : Type} (p : α → Bool) (l : List α) :
    l.countP p + l.countP (fun a => !(p a)) = l.length := by
  induction l with
  | nil => rfl
  | cons a l ih => cases h : p a <;> simp [List.countP_cons, h] <;> omega

/-- The payload a recipient receives is either the untranslated base
message, or the translated rendering — and the latter only when the
recipient has a preferred language different from the original, the
translation resolved, its text is non-empty and its confidence is above
0. -/
theorem recipientPayload_cases (env : PostEnv) (base : RealtimePayload)
    (originalLanguage : Option String) (m : Member) :
    recipientPayload env base originalLanguage m = base ∨
    ((recipientPayload env base originalLanguage m).isTranslated = true ∧
      ∃ tr pref, m.preferredLanguage = some pref ∧ ¬ some pref = originalLanguage ∧
        env.translationOutcome m.clerkId = .ok tr ∧
        ¬ tr.translatedText = "" ∧ tr.confidence.getD 0 > 0 ∧
        (recipientPayload env base originalLanguage m).content = tr.translatedText) := by
  cases hm : m.preferredLanguage with
  | none => exact Or.inl (by simp [recipientPayload, hm])
  | some pref =>
    by_cases hpo : some pref = originalLanguage
    · left
      subst hpo
      simp [recipientPayload, hm]
    · cases hto : env.translationOutcome m.clerkId with
      | error e => exact Or.inl (by simp [recipientPayload, hm, hpo, hto])
      | ok tr =>
        by_cases hcond : ¬ tr.translatedText = "" ∧ tr.confidence.getD 0 > 0
        · refine Or.inr ⟨?_, tr, pref, rfl, hpo, rfl, hcond.1, hcond.2, ?_⟩ <;>
            simp [recipientPayload, hm, hpo, hto, hcond.1, hcond.2]
        · exact Or.inl (by simp [recipientPayload, hm, hpo, hto, hcond])

/-- C2: for one message sent into a conversation whose member list contains
the sender exactly once, the route makes exactly `N = members.length`
delivery attempts — one conversation broadcast of the untranslated message
plus one per-recipient push — every recipient receives exactly one
`toUser` delivery, and each delivered payload is the translated rendering
when the translation outcome is acceptable (resolved, non-empty text,
confidence above 0) and the untranslated original otherwise (low
confidence, same language, missing preference, or a caught rejection). -/
theorem C2_fanout (env : PostEnv) (conversationId userId content : String)
    (originalLanguage : Option String) (message : MessageRec)
    (ha : env.authUserId = some userId)
    (hb : env.body = some (content, originalLanguage))
    (hc : ¬ jsTrim content = "")
    (hp : env.persist = .ok message)
    (hsender : env.members.countP (fun m => m.clerkId = userId) = 1) :
    (postMessage env conversationId).2 =
      .toConversation conversationId (baseRealtimeMessage message env.sender) ::
        (env.members.filter (fun m => ¬ m.clerkId = userId)).map (fun r =>
          .toUser r.clerkId (recipientPayload env (baseRealtimeMessage message env.sender)
            originalLanguage r)) ∧
    (postMessage env conversationId).2.length = env.members.length ∧
    (∀ m ∈ env.members, ¬ m.clerkId = userId →
      Delivery.toUser m.clerkId (recipientPayload env (baseRealtimeMessage message env.sender)
        originalLanguage m) ∈ (postMessage env conversationId).2) ∧
    (∀ m : Member,
      recipientPayload env (baseRealtimeMessage message env.sender) originalLanguage m =
        baseRealtimeMessage message env.sender ∨
      ((recipientPayload env (baseRealtimeMessage message env.sender) originalLanguage m).isTranslated
          = true ∧
        ∃ tr pref, m.preferredLanguage = some pref ∧ ¬ some pref = originalLanguage ∧
          env.translationOutcome m.clerkId = .ok tr ∧
          ¬ tr.translatedText = "" ∧ tr.confidence.getD 0 > 0 ∧
          (recipientPayload env (baseRealtimeMessage message env.sender)
            originalLanguage m).content = tr.translatedText)) := by
  have hshape : (postMessage env conversationId).2 =
      .toConversation conversationId (baseRealtimeMessage message env.sender) ::
        (env.members.filter (fun m => ¬ m.clerkId = userId)).map (fun r =>
          .toUser r.clerkId (recipientPayload env (baseRealtimeMessage message env.sender)
            originalLanguage r)) := by
    simp [postMessage, ha, hb, hc, hp]
  refine ⟨hshape, ?_, ?_, fun m =>
    recipientPayload_cases env (baseRealtimeMessage message env.sender) originalLanguage m⟩
  · rw [hshape]
    have hsum := countP_not_sum (fun m : Member => decide (m.clerkId = userId)) env.members
    have hfl : (env.members.filter (fun m => ¬ m.clerkId = userId)).length =
        env.members.countP (fun m => !(decide (m.clerkId = userId))) :=
      (List.countP_eq_length_filter _ _).symm.trans (by
        apply List.countP_congr
        intro m hm
        simp)
    have hone : env.members.countP (fun m : Member => decide (m.clerkId = userId)) = 1 := hsender
    simp only [List.length_cons, List.length_map]
    omega
  · intro m hm hne
    rw [hshape]
    refine List.mem_cons_of_mem _ ?_
    exact List.mem_map_of_mem _ (List.mem_filter.mpr ⟨hm, by simpa using hne⟩)

/-- The concrete environment of the C2 and C8 witnesses: Alice sends
"hello" to a two-member conversation with Bob (Spanish preference). -/
def envC2 : PostEnv :=
  { authUserId := some "alice"
    body := some ("hello", some "en")
    persist := .ok (MessageRec.mk "m1" "conv1" "hello" "alice" 0 (some "en"))
    sender := some (SenderRec.mk (some "Alice") none none)
    members := [Member.mk "alice" (some "en"), Member.mk "bob" (some "es")]
    translationOutcome := fun _ =>
      .ok (TranslationResponse.mk "hola" (some "en") (some (85 / 100))) }

/-- C2, witness: two members yield two delivery attempts, and Bob receives
his `toUser` delivery. -/
theorem C2_fanout_witness :
    (postMessage envC2 "conv1").2.length = envC2.members.length ∧
    Delivery.toUser "bob" (recipientPayload envC2
        (baseRealtimeMessage (MessageRec.mk "m1" "conv1" "hello" "alice" 0 (some "en"))
          envC2.sender) (some "en") (Member.mk "bob" (some "es")))
      ∈ (postMessage envC2 "conv1").2 := by
  have h := C2_fanout envC2 "conv1" "alice" "hello" (some "en")
    (MessageRec.mk "m1" "conv1" "hello" "alice" 0 (some "en"))
    rfl rfl (by decide) rfl (by decide)
  exact ⟨h.2.1, h.2.2.1 (Member.mk "bob" (some "es")) (by decide) (by decide)⟩

/-- C8: when persisting the message fails, the send surfaces the 500
response of the route's catch-all handler and no delivery is attempted —
no conversation broadcast and no per-recipient push. -/
theorem C8_persistence_failure (env : PostEnv) (conversationId userId content : String)
    (originalLanguage : Option String)
    (ha : env.authUserId = some userId)
    (hb : env.body = some (content, originalLanguage))
    (hc : ¬ jsTrim content = "")
    (hp : env.persist = .error ()) :
    postMessage env conversationId = (.serverError, []) := by
  simp [postMessage, ha, hb, hc, hp]

/-- C8, witness: the concrete send with a failing persistence
collaborator. -/
theorem C8_persistence_failure_witness :
    postMessage (PostEnv.mk (some "alice") (some ("hello", some "en")) (.error ())
      (some (SenderRec.mk (some "Alice") none none))
      [Member.mk "alice" (some "en"), Member.mk "bob" (some "es")]
      (fun _ => .error ())) "conv1" = (.serverError, []) :=
  C8_persistence_failure (PostEnv.mk (some "alice") (some ("hello", some "en")) (.error ())
      (some (SenderRec.mk (some "Alice") none none))
      [Member.mk "alice" (some "en"), Member.mk "bob" (some "es")]
      (fun _ => .error ())) "conv1" "alice" "hello" (some "en")
    rfl rfl (by decide) rfl

end LangApp
